import Mathlib

/-!
Verification development for the ghost-lang interpreter (Go tree-walking
evaluator).  The data model and the operations are translated from the Go
source: the runtime object model (`internal/object`), the chained scope
environment (`internal/object/environment.go`), the call-stack frames and
the tree-walking evaluator (`internal/evaluator/evaluator.go`).

Modelling conventions:
* Go `int64` arithmetic is modelled on `Int` with explicit two's-complement
  wraparound (`i64`).
* Go `float64` is modelled by an abstract carrier bundled in `FloatModel`;
  every theorem that touches floats holds for every such model, so nothing
  below depends on IEEE-754 rounding.  `ratFM` instantiates the carrier
  with the rationals for concrete witnesses.
* Go pointers to mutable objects (`*List`, `*String`) become indices into an
  explicit heap; `*Environment` becomes an index into an explicit list of
  scope records.  `*Symbol` values are replaced wholesale by the source
  (never mutated in place), so symbols are plain values.
* Source positions (`util.Pos`) and the text of tracebacks only affect
  rendering and are omitted; errors keep their kind and message.
* Go panics (nil dereference, out-of-range slice index, unknown AST node)
  become the `Status.crashed` state; unbounded recursion and loops are
  modelled with a fuel parameter (`Status.fuelOut` when exhausted).
-/

namespace Ghost

/-- Error kinds of the interpreter, one per error struct of the source. -/
inductive ErrKind where
  | variableError
  | typeError
  | syntaxError
  | argumentError
  | operationError
  | mathError
  | indexError
  | illegalTokenError
deriving DecidableEq, Repr

/-- Runtime error: kind plus message.  The source errors additionally carry
the frame chain and a source span, which are used only for traceback
rendering and are omitted here. -/
structure GErr where
  kind : ErrKind
  msg : String
deriving DecidableEq, Repr

/-- Abstract model of the Go `float64` carrier together with the operations
the source applies to it.  Theorems below are proved for every model. -/
structure FloatModel where
  F : Type
  ofInt : Int → F
  fadd : F → F → F
  fsub : F → F → F
  fmul : F → F → F
  fdiv : F → F → F
  fmod : F → F → F
  fneg : F → F
  zero : F
  feq : F → F → Bool
  flt : F → F → Bool
  fle : F → F → Bool

/-- Concrete float model over the rationals, used to evaluate witnesses.
(The semantics of `fdiv`/`fmod` at a zero divisor is irrelevant: the source
guards every division and modulo with a zero test first.) -/
def ratFM : FloatModel where
  F := Rat
  ofInt := fun a => (a : Rat)
  fadd := fun a b => a + b
  fsub := fun a b => a - b
  fmul := fun a b => a * b
  fdiv := fun a b => a / b
  fmod := fun a b => a - b * ((a / b).floor : Rat)
  fneg := fun a => -a
  zero := 0
  feq := fun a b => decide (a = b)
  flt := fun a b => decide (a < b)
  fle := fun a b => decide (a ≤ b)

/-! Go `int64` arithmetic, with explicit two's-complement wraparound. -/

/-- Reduce an integer into the `int64` range with two's-complement wrap. -/
def i64 (x : Int) : Int := (x + 2 ^ 63) % 2 ^ 64 - 2 ^ 63

def i64add (a b : Int) : Int := i64 (a + b)

def i64sub (a b : Int) : Int := i64 (a - b)

def i64mul (a b : Int) : Int := i64 (a * b)

/-- Go `%` on int64: remainder of truncated division (sign of the dividend). -/
def i64mod (a b : Int) : Int := i64 (Int.tmod a b)

def i64neg (a : Int) : Int := i64 (-a)

/-- Go `^a` (bitwise complement) on int64 equals `-a - 1`. -/
def i64not (a : Int) : Int := i64 (-a - 1)

/-- View of an int64 value as its unsigned 64-bit bit pattern. -/
def toU64 (x : Int) : Nat := (x % 2 ^ 64).toNat

/-- Back from a 64-bit pattern to the signed int64 value. -/
def ofU64 (n : Nat) : Int :=
  if n < 2 ^ 63 then (n : Int) else (n : Int) - 2 ^ 64

def i64and (a b : Int) : Int := ofU64 (Nat.land (toU64 a) (toU64 b))

def i64or (a b : Int) : Int := ofU64 (Nat.lor (toU64 a) (toU64 b))

def i64xor (a b : Int) : Int := ofU64 (Nat.xor (toU64 a) (toU64 b))

/-- Go `a << b` on int64 for a non-negative count (counts of 64 or more
shift everything out). -/
def i64shl (a b : Int) : Int :=
  if 64 ≤ b then 0 else i64 (a * 2 ^ b.toNat)

/-- Go `a >> b` on int64 for a non-negative count: arithmetic shift,
i.e. floor division by the power of two. -/
def i64shr (a b : Int) : Int :=
  if 64 ≤ b then (if a < 0 then -1 else 0) else Int.fdiv a (2 ^ b.toNat)

/-!
UTF-8, as used by Go strings.  A Go `string` is a byte sequence; the
conversion `[]rune(s)` decodes maximal valid UTF-8 sequences and turns every
invalid byte into U+FFFD, consuming exactly one byte.  `String.Index` of the
source works on the decoded runes while `String.Set` works on the raw bytes,
so both views are needed.
-/

/-- Step-bounded UTF-8 decoder; the gas only bounds the recursion (each
step consumes at least one byte, so gas `l.length` never runs out). -/
def utf8DecodeGo : Nat → List Nat → List Nat
  | 0, _ => []
  | _, [] => []
  | gas + 1, b0 :: rest =>
    if b0 < 0x80 then b0 :: utf8DecodeGo gas rest
    else if 0xC2 ≤ b0 && b0 ≤ 0xDF then
      match rest with
      | b1 :: rest1 =>
        if 0x80 ≤ b1 && b1 ≤ 0xBF then
          ((b0 - 0xC0) * 0x40 + (b1 - 0x80)) :: utf8DecodeGo gas rest1
        else 0xFFFD :: utf8DecodeGo gas rest
      | [] => [0xFFFD]
    else if 0xE0 ≤ b0 && b0 ≤ 0xEF then
      match rest with
      | b1 :: b2 :: rest2 =>
        if (if b0 = 0xE0 then 0xA0 else 0x80) ≤ b1 &&
            b1 ≤ (if b0 = 0xED then 0x9F else 0xBF) &&
            0x80 ≤ b2 && b2 ≤ 0xBF then
          ((b0 - 0xE0) * 0x1000 + (b1 - 0x80) * 0x40 + (b2 - 0x80)) ::
            utf8DecodeGo gas rest2
        else 0xFFFD :: utf8DecodeGo gas rest
      | _ => 0xFFFD :: utf8DecodeGo gas rest
    else if 0xF0 ≤ b0 && b0 ≤ 0xF4 then
      match rest with
      | b1 :: b2 :: b3 :: rest3 =>
        if (if b0 = 0xF0 then 0x90 else 0x80) ≤ b1 &&
            b1 ≤ (if b0 = 0xF4 then 0x8F else 0xBF) &&
            0x80 ≤ b2 && b2 ≤ 0xBF && 0x80 ≤ b3 && b3 ≤ 0xBF then
          ((b0 - 0xF0) * 0x40000 + (b1 - 0x80) * 0x1000 +
            (b2 - 0x80) * 0x40 + (b3 - 0x80)) :: utf8DecodeGo gas rest3
        else 0xFFFD :: utf8DecodeGo gas rest
      | _ => 0xFFFD :: utf8DecodeGo gas rest
    else 0xFFFD :: utf8DecodeGo gas rest

/-- Decode the bytes of a Go string into runes (code points), following the
Go `[]rune` conversion: an invalid or incomplete sequence yields U+FFFD and
consumes one byte. -/
def utf8Decode (l : List Nat) : List Nat := utf8DecodeGo l.length l

/-- Encode one rune back into UTF-8 bytes, as Go `string(r)` does for a
single rune (invalid runes encode as U+FFFD). -/
def utf8EncodeChar (r : Nat) : List Nat :=
  if r < 0x80 then [r]
  else if r < 0x800 then [0xC0 + r / 0x40, 0x80 + r % 0x40]
  else if 0xD800 ≤ r && r ≤ 0xDFFF then [0xEF, 0xBF, 0xBD]
  else if r < 0x10000 then
    [0xE0 + r / 0x1000, 0x80 + r / 0x40 % 0x40, 0x80 + r % 0x40]
  else if r ≤ 0x10FFFF then
    [0xF0 + r / 0x40000, 0x80 + r / 0x1000 % 0x40,
      0x80 + r / 0x40 % 0x40, 0x80 + r % 0x40]
  else [0xEF, 0xBF, 0xBD]

/-- Bytes of an ASCII Lean string, used to write concrete programs. -/
def asciiBytes (s : String) : List Nat := s.toList.map Char.toNat

/-!
The abstract syntax tree (`internal/parser/ast`).  Every node of the source
carries a start and an end position; positions only affect diagnostics and
are dropped.  Operator tokens are replaced by the corresponding operator
kinds the evaluator dispatches on.
-/

/-- Unary operator kinds handled by `evalPrefixOperator`. -/
inductive PreOp where
  | minus
  | bang
  | bitNot
deriving DecidableEq, Repr

/-- Binary operator kinds handled by `evalInfixOperator`. -/
inductive BinOp where
  | plus
  | minus
  | asterisk
  | slash
  | percent
  | equals
  | notEquals
  | lt
  | gt
  | lte
  | gte
  | bitAnd
  | bitOr
  | bitXor
  | leftShift
  | rightShift
  | logicalAnd
  | logicalOr
deriving DecidableEq, Repr

/-- Increment or decrement, for the `++`/`--` expression forms. -/
inductive IncDecOp where
  | increment
  | decrement
deriving DecidableEq, Repr

/-- Compound assignment operator kinds (`+=`, `-=`, ...). -/
inductive CompOp where
  | plusEq
  | minusEq
  | asteriskEq
  | slashEq
  | percentEq
  | bitAndEq
  | bitOrEq
  | bitXorEq
  | leftShiftEq
  | rightShiftEq
deriving DecidableEq, Repr

/-- Translation of `lexer.CompoundAssignmentOperators`: the base operator of
each compound assignment operator. -/
def compBase : CompOp → BinOp
  | .plusEq => .plus
  | .minusEq => .minus
  | .asteriskEq => .asterisk
  | .slashEq => .slash
  | .percentEq => .percent
  | .bitAndEq => .bitAnd
  | .bitOrEq => .bitOr
  | .bitXorEq => .bitXor
  | .leftShiftEq => .leftShift
  | .rightShiftEq => .rightShift

/-- Rendering of a binary operator, as it appears in error messages. -/
def BinOp.lit : BinOp → String
  | .plus => "+"
  | .minus => "-"
  | .asterisk => "*"
  | .slash => "/"
  | .percent => "%"
  | .equals => "=="
  | .notEquals => "!="
  | .lt => "<"
  | .gt => ">"
  | .lte => "<="
  | .gte => ">="
  | .bitAnd => "&"
  | .bitOr => "|"
  | .bitXor => "^"
  | .leftShift => "<<"
  | .rightShift => ">>"
  | .logicalAnd => "&&"
  | .logicalOr => "||"

mutual

/-- Expression nodes.  `varInit` and function names are written with the
identifier name directly: the source declares them as `ast.Expression` but
the evaluator immediately casts them to `*ast.IdentifierExpression` and the
parser only ever builds identifiers there.  A `call` argument of `none` is
the parser's explicit absent placeholder (Go `nil` entry). -/
inductive Expr (FM : FloatModel) : Type where
  | intLit (v : Int)
  | floatLit (v : FM.F)
  | boolLit (b : Bool)
  | nullLit
  | strLit (bytes : List Nat)
  | listLit (elems : List (Expr FM))
  | ident (name : String)
  | unary (op : PreOp) (value : Expr FM)
  | binary (op : BinOp) (left : Expr FM) (right : Expr FM)
  | grouped (e : Expr FM)
  | varInit (isConst : Bool) (name : String) (value : Expr FM)
  | varAssign (target : Expr FM) (value : Expr FM)
  | compoundAssign (op : CompOp) (target : Expr FM) (right : Expr FM)
  | preIncDec (op : IncDecOp) (right : Expr FM)
  | postIncDec (op : IncDecOp) (left : Expr FM)
  | block (stmts : List (Stmt FM))
  | ifE (cond : Expr FM) (cons : Stmt FM) (alt : Option (Stmt FM))
  | call (fn : Expr FM) (args : List (Option (Expr FM)))
  | indexE (target : Expr FM) (idx : Expr FM)

/-- Statement nodes.  A function parameter is its name together with an
optional default-value expression (`ast.Parameter`). -/
inductive Stmt (FM : FloatModel) : Type where
  | exprStmt (e : Expr FM)
  | forStmt (init : Stmt FM) (cond : Expr FM) (update : Stmt FM)
      (body : Stmt FM)
  | funcDecl (name : String) (params : List (String × Option (Expr FM)))
      (body : Stmt FM)
  | ret (value : Expr FM)

end

/-- The native implementations registered in `object.Builtins`. -/
inductive BKind where
  | printB
  | printlnB
  | lenB
deriving DecidableEq, Repr

/-- Runtime objects (`object.Object`).  Mutable objects — lists and strings —
are represented by references into an explicit heap, mirroring the Go
pointers `*List` and `*String`.  `retVal` is `object.ReturnValue`, the
wrapper that carries a `return` value upwards (its payload may be Go `nil`).
`fn` captures the defining environment by reference (`object.Function.Env`).
A builtin carries its parameter names, its declared default values (a list
of objects in the source; empty for every registered builtin) and its native
implementation kind. -/
inductive Obj (FM : FloatModel) : Type where
  | int (v : Int)
  | float (v : FM.F)
  | bool (b : Bool)
  | str (ref : Nat)
  | list (ref : Nat)
  | null
  | fn (name : String) (params : List (String × Option (Expr FM)))
      (body : Stmt FM) (env : Nat)
  | builtin (name : String) (params : List String)
      (defaults : List (Obj FM)) (impl : BKind)
  | retVal (v : Option (Obj FM))

/-- Translation of the `Type()` methods of the object model.  The source
files defining `Null` and `ReturnValue` are not part of the corpus; their
tags are modelled from the spec object list (they are never compared against
a differing tag in any claim). -/
def objType {FM : FloatModel} : Obj FM → String
  | .int _ => "Int"
  | .float _ => "Float"
  | .bool _ => "Bool"
  | .str _ => "String"
  | .list _ => "LIST"
  | .null => "Null"
  | .fn _ _ _ _ => "Function"
  | .builtin _ _ _ _ => "BuiltinFunction"
  | .retVal _ => "ReturnValue"

/-- A bound name: value plus const flag (`object.Symbol`).  The value is
optional because the Go field holds an interface that can be `nil`. -/
structure Symbol (FM : FloatModel) where
  name : String
  value : Option (Obj FM)
  isConst : Bool

/-- One scope record (`object.Environment`): a name-to-symbol map plus an
optional reference to the enclosing scope. -/
structure EnvRec (FM : FloatModel) where
  store : List (String × Symbol FM)
  outer : Option Nat

/-- A heap cell: the mutable payload of a list or of a string object. -/
inductive HVal (FM : FloatModel) : Type where
  | listv (elems : List (Obj FM))
  | strv (bytes : List Nat)

/-- Call-stack record (`frame.Frame`): label and parent; the call-site span
is omitted.  The Go `Parent *Frame` field is `nil` exactly for the root
frame, so the chain is encoded as `root`/`child`. -/
inductive Frame where
  | root (funcName : String)
  | child (funcName : String) (parent : Frame)
deriving DecidableEq, Repr

def Frame.funcName : Frame → String
  | .root n => n
  | .child n _ => n

def Frame.parent : Frame → Option Frame
  | .root _ => none
  | .child _ p => some p

/-- Evaluation status: `ok`, the sticky evaluator error (`Evaluator.Err`),
a Go panic (`crashed`), or fuel exhaustion standing for divergence. -/
inductive Status where
  | ok
  | error (e : GErr)
  | crashed
  | fuelOut
deriving DecidableEq, Repr

/-- The interpreter state: the scope records, the heap of mutable objects,
the current frame (`Evaluator.Frame`), the status (`Evaluator.Err` plus the
panic/fuel conditions) and the log of objects handed to `print`/`println`
(their textual rendering is omitted). -/
structure St (FM : FloatModel) where
  envs : List (EnvRec FM)
  heap : List (HVal FM)
  frame : Frame
  status : Status
  outLog : List (Obj FM)

/-- Whether evaluation has been torn down by a panic or by fuel exhaustion.
A Go panic unwinds immediately, unlike the sticky `Err` field which is only
consulted at the explicit checks of the source. -/
def Status.halted : Status → Bool
  | .crashed => true
  | .fuelOut => true
  | _ => false

def setErr {FM : FloatModel} (st : St FM) (k : ErrKind) (m : String) :
    St FM :=
  { st with status := .error ⟨k, m⟩ }

def crash {FM : FloatModel} (st : St FM) : St FM :=
  { st with status := .crashed }

def fuelStop {FM : FloatModel} (st : St FM) : St FM :=
  { st with status := .fuelOut }

/-- Message text of the uniform unsupported-operation error. -/
def opErrMsg (op : String) : String :=
  "invalid operation \"" ++ op ++ "\"."

/-! Store and environment operations (`object/environment.go`). -/

/-- Lookup in one scope's map. -/
def storeGet {FM : FloatModel} :
    List (String × Symbol FM) → String → Option (Symbol FM)
  | [], _ => none
  | (k, sym) :: rest, n => if k = n then some sym else storeGet rest n

/-- Map update: replace the binding of the name, or add one. -/
def storeSet {FM : FloatModel} :
    List (String × Symbol FM) → String → Symbol FM →
      List (String × Symbol FM)
  | [], n, sym => [(n, sym)]
  | (k, old) :: rest, n, sym =>
    if k = n then (k, sym) :: rest else (k, old) :: storeSet rest n sym

/-- Chain walk for `Environment.Get`.  The gas bounds the walk; any chain
reachable by the allocation discipline of the evaluator (each scope's outer
scope is an earlier allocation) has length at most the number of scopes,
so gas `envs.length` never runs out on reachable states. -/
def envGetGo {FM : FloatModel} (envs : List (EnvRec FM)) :
    Nat → Nat → String → Option (Symbol FM)
  | 0, _, _ => none
  | gas + 1, id, n =>
    match envs.get? id with
    | none => none
    | some r =>
      match storeGet r.store n with
      | some sym => some sym
      | none =>
        match r.outer with
        | some o => envGetGo envs gas o n
        | none => none

/-- Translation of `Environment.Get`: search the scope chain outward. -/
def envGet {FM : FloatModel} (st : St FM) (id : Nat) (n : String) :
    Option (Symbol FM) :=
  envGetGo st.envs st.envs.length id n

/-- Translation of `Environment.Set`: mutate only the given scope. -/
def envSet {FM : FloatModel} (st : St FM) (id : Nat) (n : String)
    (sym : Symbol FM) : St FM :=
  match st.envs.get? id with
  | none => st
  | some r => { st with envs := st.envs.set id { r with store := storeSet r.store n sym } }

/-- Chain walk for `Environment.Assign` (same gas discipline as `envGetGo`). -/
def envAssignGo {FM : FloatModel} :
    Nat → List (EnvRec FM) → Nat → String → Symbol FM → List (EnvRec FM)
  | 0, envs, _, _, _ => envs
  | gas + 1, envs, id, n, sym =>
    match envs.get? id with
    | none => envs
    | some r =>
      match storeGet r.store n with
      | some _ => envs.set id { r with store := storeSet r.store n sym }
      | none =>
        match r.outer with
        | some o => envAssignGo gas envs o n sym
        | none => envs

/-- Translation of `Environment.Assign`: mutate the nearest scope that
already defines the name; no-op when none does. -/
def envAssign {FM : FloatModel} (st : St FM) (id : Nat) (n : String)
    (sym : Symbol FM) : St FM :=
  { st with envs := envAssignGo st.envs.length st.envs id n sym }

/-- Translation of `Environment.Exists`: check only the given scope. -/
def envExists {FM : FloatModel} (st : St FM) (id : Nat) (n : String) :
    Bool :=
  match st.envs.get? id with
  | none => false
  | some r => (storeGet r.store n).isSome

/-- Allocate a fresh child scope (`&object.Environment{...}`). -/
def envAlloc {FM : FloatModel} (st : St FM) (outer : Option Nat) :
    St FM × Nat :=
  ({ st with envs := st.envs ++ [⟨[], outer⟩] }, st.envs.length)

/-- Allocate a fresh heap object (a Go `&List{...}` or `&String{...}`). -/
def heapAlloc {FM : FloatModel} (st : St FM) (hv : HVal FM) :
    St FM × Nat :=
  ({ st with heap := st.heap ++ [hv] }, st.heap.length)

def heapGet {FM : FloatModel} (st : St FM) (r : Nat) : Option (HVal FM) :=
  st.heap.get? r

def heapSet {FM : FloatModel} (st : St FM) (r : Nat) (hv : HVal FM) :
    St FM :=
  { st with heap := st.heap.set r hv }

/-!
The operator capability surface of the object model: one function per
operation, dispatching on the left operand exactly as the per-type methods
of the source do.  A result of `none` is a Go panic (nil dereference or a
dangling reference, neither reachable from well-formed evaluation).
Operations that can build a new list or string object additionally thread
the state for the allocation.
-/

section ObjectOps

variable {FM : FloatModel}

/-- Result of a pure object operation: error or value, `none` for a panic. -/
abbrev OpRes (FM : FloatModel) := Option (Except GErr (Obj FM))

def opErr {FM : FloatModel} (k : ErrKind) (m : String) : OpRes FM :=
  some (.error ⟨k, m⟩)

def opOk {FM : FloatModel} (o : Obj FM) : OpRes FM := some (.ok o)

/-- Translation of the `Negative` methods (prefix `-`). -/
def objNegative (o : Obj FM) : OpRes FM :=
  match o with
  | .int a => opOk (.int (i64neg a))
  | .float a => opOk (.float (FM.fneg a))
  | _ => opErr .operationError (opErrMsg "-")

/-- Translation of the `Not` methods (prefix `!`). -/
def objNot (o : Obj FM) : OpRes FM :=
  match o with
  | .bool b => opOk (.bool (!b))
  | _ => opErr .operationError (opErrMsg "!")

/-- Translation of the `BitNot` methods (prefix `~`). -/
def objBitNot (o : Obj FM) : OpRes FM :=
  match o with
  | .int a => opOk (.int (i64not a))
  | _ => opErr .operationError (opErrMsg "~")

/-- Bytes of a string object, `none` when the reference dangles. -/
def strBytes (st : St FM) (r : Nat) : Option (List Nat) :=
  match heapGet st r with
  | some (.strv bs) => some bs
  | _ => none

/-- Elements of a list object, `none` when the reference dangles. -/
def listElems (st : St FM) (r : Nat) : Option (List (Obj FM)) :=
  match heapGet st r with
  | some (.listv es) => some es
  | _ => none

/-- Translation of the `Add` methods (binary `+`). -/
def objAdd (st : St FM) (l r : Obj FM) : St FM × OpRes FM :=
  match l with
  | .int a =>
    match r with
    | .int b => (st, opOk (.int (i64add a b)))
    | .float b => (st, opOk (.float (FM.fadd (FM.ofInt a) b)))
    | _ => (st, opErr .operationError (opErrMsg "+"))
  | .float a =>
    match r with
    | .int b => (st, opOk (.float (FM.fadd a (FM.ofInt b))))
    | .float b => (st, opOk (.float (FM.fadd a b)))
    | _ => (st, opErr .operationError (opErrMsg "+"))
  | .str ra =>
    match r with
    | .str rb =>
      match strBytes st ra, strBytes st rb with
      | some ba, some bb =>
        let (st1, nr) := heapAlloc st (.strv (ba ++ bb))
        (st1, opOk (.str nr))
      | _, _ => (st, none)
    | _ => (st, opErr .operationError (opErrMsg "+"))
  | .list ra =>
    match r with
    | .list rb =>
      match listElems st ra, listElems st rb with
      | some ea, some eb =>
        if ea.length > 0 ∧ eb.length > 0 ∧
            (ea.head?.map objType) ≠ (eb.head?.map objType) then
          (st, opErr .operationError
            "cannot concatenate lists with different element types.")
        else
          let (st1, nr) := heapAlloc st (.listv (ea ++ eb))
          (st1, opOk (.list nr))
      | _, _ => (st, none)
    | _ => (st, opErr .operationError (opErrMsg "+"))
  | _ => (st, opErr .operationError (opErrMsg "+"))

/-- Translation of the `Subtract` methods (binary `-`). -/
def objSubtract (st : St FM) (l r : Obj FM) : St FM × OpRes FM :=
  match l with
  | .int a =>
    match r with
    | .int b => (st, opOk (.int (i64sub a b)))
    | .float b => (st, opOk (.float (FM.fsub (FM.ofInt a) b)))
    | _ => (st, opErr .operationError (opErrMsg "-"))
  | .float a =>
    match r with
    | .int b => (st, opOk (.float (FM.fsub a (FM.ofInt b))))
    | .float b => (st, opOk (.float (FM.fsub a b)))
    | _ => (st, opErr .operationError (opErrMsg "-"))
  | _ => (st, opErr .operationError (opErrMsg "-"))

/-- Translation of the `Multiply` methods (binary `*`).  Int times String
and String times Int repeat the string; List times Int repeats the list. -/
def objMultiply (st : St FM) (l r : Obj FM) : St FM × OpRes FM :=
  match l with
  | .int a =>
    match r with
    | .int b => (st, opOk (.int (i64mul a b)))
    | .float b => (st, opOk (.float (FM.fmul (FM.ofInt a) b)))
    | .str rb =>
      if a < 0 then (st, opErr .operationError (opErrMsg "*"))
      else if a > 2 ^ 63 - 1 then (st, opErr .operationError (opErrMsg "*"))
      else
        match strBytes st rb with
        | some bb =>
          let (st1, nr) := heapAlloc st (.strv (List.replicate a.toNat bb).flatten)
          (st1, opOk (.str nr))
        | none => (st, none)
    | _ => (st, opErr .operationError (opErrMsg "*"))
  | .float a =>
    match r with
    | .int b => (st, opOk (.float (FM.fmul a (FM.ofInt b))))
    | .float b => (st, opOk (.float (FM.fmul a b)))
    | _ => (st, opErr .operationError (opErrMsg "*"))
  | .str ra =>
    match r with
    | .int b =>
      if b < 0 then (st, opErr .operationError (opErrMsg "*"))
      else if b > 2 ^ 63 - 1 then (st, opErr .operationError (opErrMsg "*"))
      else
        match strBytes st ra with
        | some ba =>
          let (st1, nr) := heapAlloc st (.strv (List.replicate b.toNat ba).flatten)
          (st1, opOk (.str nr))
        | none => (st, none)
    | _ => (st, opErr .operationError (opErrMsg "*"))
  | .list ra =>
    match r with
    | .int b =>
      if b ≤ 0 then (st, opErr .operationError (opErrMsg "*"))
      else
        match listElems st ra with
        | some ea =>
          if ea.length = 0 then
            let (st1, nr) := heapAlloc st (.listv [])
            (st1, opOk (.list nr))
          else
            let (st1, nr) :=
              heapAlloc st (.listv (List.replicate b.toNat ea).flatten)
            (st1, opOk (.list nr))
        | none => (st, none)
    | _ => (st, opErr .operationError (opErrMsg "*"))
  | _ => (st, opErr .operationError (opErrMsg "*"))

/-- Translation of the `Divide` methods (binary `/`).  Division of two Ints
promotes to Float; any zero divisor is a MathError. -/
def objDivide (st : St FM) (l r : Obj FM) : St FM × OpRes FM :=
  match l with
  | .int a =>
    match r with
    | .int b =>
      if b = 0 then (st, opErr .mathError "division by zero.")
      else (st, opOk (.float (FM.fdiv (FM.ofInt a) (FM.ofInt b))))
    | .float b =>
      if FM.feq b FM.zero then (st, opErr .mathError "division by zero.")
      else (st, opOk (.float (FM.fdiv (FM.ofInt a) b)))
    | _ => (st, opErr .operationError (opErrMsg "/"))
  | .float a =>
    match r with
    | .int b =>
      if b = 0 then (st, opErr .mathError "division by zero.")
      else (st, opOk (.float (FM.fdiv a (FM.ofInt b))))
    | .float b =>
      if FM.feq b FM.zero then (st, opErr .mathError "division by zero.")
      else (st, opOk (.float (FM.fdiv a b)))
    | _ => (st, opErr .operationError (opErrMsg "/"))
  | _ => (st, opErr .operationError (opErrMsg "/"))

/-- Translation of the `Mod` methods (binary `%`).  Int mod Int stays Int;
a Float operand on either side gives a Float; zero divisors are MathErrors. -/
def objMod (st : St FM) (l r : Obj FM) : St FM × OpRes FM :=
  match l with
  | .int a =>
    match r with
    | .int b =>
      if b = 0 then (st, opErr .mathError "division by zero.")
      else (st, opOk (.int (i64mod a b)))
    | .float b =>
      if FM.feq b FM.zero then (st, opErr .mathError "division by zero.")
      else (st, opOk (.float (FM.fmod (FM.ofInt a) b)))
    | _ => (st, opErr .operationError (opErrMsg "%"))
  | .float a =>
    match r with
    | .int b =>
      if b = 0 then (st, opErr .mathError "division by zero.")
      else (st, opOk (.float (FM.fmod a (FM.ofInt b))))
    | .float b =>
      if FM.feq b FM.zero then (st, opErr .mathError "division by zero.")
      else (st, opOk (.float (FM.fmod a b)))
    | _ => (st, opErr .operationError (opErrMsg "%"))
  | _ => (st, opErr .operationError (opErrMsg "%"))

mutual

/-- Translation of the `Equal` methods.  Lists compare element-wise through
the heap; the gas bounds that recursion (Go overflows the stack on cyclic
lists, modelled as a panic).  Closure identity of `Function` and
`BuiltinFunction` values (Go pointer equality) is not represented; such
comparisons are modelled as `false` and are exercised by no claim. -/
def objEqualGo (st : St FM) : Nat → Obj FM → Obj FM → OpRes FM
  | 0, _, _ => none
  | _ + 1, .int a, r =>
    match r with
    | .int b => opOk (.bool (a = b))
    | .float b => opOk (.bool (FM.feq (FM.ofInt a) b))
    | _ => opOk (.bool false)
  | _ + 1, .float a, r =>
    match r with
    | .int b => opOk (.bool (FM.feq a (FM.ofInt b)))
    | .float b => opOk (.bool (FM.feq a b))
    | _ => opOk (.bool false)
  | _ + 1, .bool a, r =>
    match r with
    | .bool b => opOk (.bool (a = b))
    | _ => opOk (.bool false)
  | _ + 1, .str ra, r =>
    match r with
    | .str rb =>
      match strBytes st ra, strBytes st rb with
      | some ba, some bb => opOk (.bool (ba = bb))
      | _, _ => none
    | _ => opOk (.bool false)
  | gas + 1, .list ra, r =>
    match r with
    | .list rb =>
      match listElems st ra, listElems st rb with
      | some ea, some eb =>
        if ea.length ≠ eb.length then opOk (.bool false)
        else listEqGo st gas ea eb
      | _, _ => none
    | _ => opOk (.bool false)
  | _ + 1, .null, r =>
    match r with
    | .null => opOk (.bool true)
    | _ => opOk (.bool false)
  | _ + 1, .fn _ _ _ _, _ => opOk (.bool false)
  | _ + 1, .builtin _ _ _ _, _ => opOk (.bool false)
  | _ + 1, .retVal _, _ => opOk (.bool false)
termination_by gas _ _ => (gas, 0)

/-- Element-wise part of `List.Equal`. -/
def listEqGo (st : St FM) : Nat → List (Obj FM) → List (Obj FM) → OpRes FM
  | _, [], _ => opOk (.bool true)
  | gas, a :: as', b :: bs' =>
    match objEqualGo st gas a b with
    | some (.ok (.bool true)) => listEqGo st gas as' bs'
    | some (.ok (.bool false)) => opOk (.bool false)
    | some (.error e) => some (.error e)
    | _ => none
  | _, _ :: _, [] => none
termination_by gas as _ => (gas, as.length + 1)

end

/-- Translation of the `NotEqual` methods.  `List.NotEqual` delegates to
`Equal` and negates; the value types mirror their `Equal` cases. -/
def objNotEqual (st : St FM) (gas : Nat) (l r : Obj FM) : OpRes FM :=
  match objEqualGo st gas l r with
  | some (.ok (.bool b)) => opOk (.bool (!b))
  | some (.error e) => some (.error e)
  | _ => none

/-- Translation of the `LessThan` methods (binary `<`). -/
def objLessThan (l r : Obj FM) : OpRes FM :=
  match l with
  | .int a =>
    match r with
    | .int b => opOk (.bool (a < b))
    | .float b => opOk (.bool (FM.flt (FM.ofInt a) b))
    | _ => opErr .operationError (opErrMsg "<")
  | .float a =>
    match r with
    | .int b => opOk (.bool (FM.flt a (FM.ofInt b)))
    | .float b => opOk (.bool (FM.flt a b))
    | _ => opErr .operationError (opErrMsg "<")
  | _ => opErr .operationError (opErrMsg "<")

/-- Translation of the `GreaterThan` methods (binary `>`). -/
def objGreaterThan (l r : Obj FM) : OpRes FM :=
  match l with
  | .int a =>
    match r with
    | .int b => opOk (.bool (a > b))
    | .float b => opOk (.bool (FM.flt b (FM.ofInt a)))
    | _ => opErr .operationError (opErrMsg ">")
  | .float a =>
    match r with
    | .int b => opOk (.bool (FM.flt (FM.ofInt b) a))
    | .float b => opOk (.bool (FM.flt b a))
    | _ => opErr .operationError (opErrMsg ">")
  | _ => opErr .operationError (opErrMsg ">")

/-- Translation of the `LessThanOrEqual` methods (binary `<=`). -/
def objLessThanOrEqual (l r : Obj FM) : OpRes FM :=
  match l with
  | .int a =>
    match r with
    | .int b => opOk (.bool (a ≤ b))
    | .float b => opOk (.bool (FM.fle (FM.ofInt a) b))
    | _ => opErr .operationError (opErrMsg "<=")
  | .float a =>
    match r with
    | .int b => opOk (.bool (FM.fle a (FM.ofInt b)))
    | .float b => opOk (.bool (FM.fle a b))
    | _ => opErr .operationError (opErrMsg "<=")
  | _ => opErr .operationError (opErrMsg "<=")

/-- Translation of the `GreaterThanOrEqual` methods (binary `>=`). -/
def objGreaterThanOrEqual (l r : Obj FM) : OpRes FM :=
  match l with
  | .int a =>
    match r with
    | .int b => opOk (.bool (a ≥ b))
    | .float b => opOk (.bool (FM.fle b (FM.ofInt a)))
    | _ => opErr .operationError (opErrMsg ">=")
  | .float a =>
    match r with
    | .int b => opOk (.bool (FM.fle (FM.ofInt b) a))
    | .float b => opOk (.bool (FM.fle b a))
    | _ => opErr .operationError (opErrMsg ">=")
  | _ => opErr .operationError (opErrMsg ">=")

/-- Translation of the `BitAnd` methods (binary `&`): Int with Int only. -/
def objBitAnd (l r : Obj FM) : OpRes FM :=
  match l, r with
  | .int a, .int b => opOk (.int (i64and a b))
  | _, _ => opErr .operationError (opErrMsg "&")

/-- Translation of the `BitOr` methods (binary `|`): Int with Int only. -/
def objBitOr (l r : Obj FM) : OpRes FM :=
  match l, r with
  | .int a, .int b => opOk (.int (i64or a b))
  | _, _ => opErr .operationError (opErrMsg "|")

/-- Translation of the `Xor` methods (binary `^`): Int with Int only. -/
def objXor (l r : Obj FM) : OpRes FM :=
  match l, r with
  | .int a, .int b => opOk (.int (i64xor a b))
  | _, _ => opErr .operationError (opErrMsg "^")

/-- Translation of the `LeftShift` methods (binary `<<`): Int with a
non-negative Int only. -/
def objLeftShift (l r : Obj FM) : OpRes FM :=
  match l, r with
  | .int a, .int b =>
    if b < 0 then opErr .operationError (opErrMsg "<<")
    else opOk (.int (i64shl a b))
  | _, _ => opErr .operationError (opErrMsg "<<")

/-- Translation of the `RightShift` methods (binary `>>`): Int with a
non-negative Int only. -/
def objRightShift (l r : Obj FM) : OpRes FM :=
  match l, r with
  | .int a, .int b =>
    if b < 0 then opErr .operationError (opErrMsg ">>")
    else opOk (.int (i64shr a b))
  | _, _ => opErr .operationError (opErrMsg ">>")

/-- Translation of the `And` methods (binary `&&`): Bool with Bool only.
(For `&&` the evaluator only reaches this with a `true` left operand.) -/
def objAnd (l r : Obj FM) : OpRes FM :=
  match l with
  | .bool a =>
    match r with
    | .bool b => opOk (.bool (a && b))
    | _ => opErr .operationError (opErrMsg "&&")
  | _ => opErr .operationError (opErrMsg "&&")

/-- Translation of the `Or` methods (binary `||`): Bool with Bool only. -/
def objOr (l r : Obj FM) : OpRes FM :=
  match l with
  | .bool a =>
    match r with
    | .bool b => opOk (.bool (a || b))
    | _ => opErr .operationError (opErrMsg "||")
  | _ => opErr .operationError (opErrMsg "||")

/-- Translation of `List.Index`: Python-style negative wraparound over the
element count, bounds check, then the element. -/
def listIndex (es : List (Obj FM)) (idx : Int) : Except GErr (Obj FM) :=
  let length : Int := es.length
  let real : Int := if idx < 0 then length + idx else idx
  if real < 0 ∨ real ≥ length then .error ⟨.indexError, "index out of range."⟩
  else
    match es.get? real.toNat with
    | some o => .ok o
    | none => .error ⟨.indexError, "index out of range."⟩

/-- Translation of `String.Index`: the bytes are decoded to runes
(`[]rune(s.Value)`), the wraparound and the bounds check use the rune count,
and the result is the one-rune string of the selected code point. -/
def stringIndex (bytes : List Nat) (idx : Int) :
    Except GErr (List Nat) :=
  let runes := utf8Decode bytes
  let length : Int := runes.length
  let real : Int := if idx < 0 then length + idx else idx
  if real < 0 ∨ real ≥ length then .error ⟨.indexError, "index out of range."⟩
  else
    match runes.get? real.toNat with
    | some r => .ok (utf8EncodeChar r)
    | none => .error ⟨.indexError, "index out of range."⟩

/-- Translation of the `Index` methods, dispatching like the evaluator does
after its own integer-index check.  String indexing allocates the result
string. -/
def objIndex (st : St FM) (target : Obj FM) (idx : Int) :
    St FM × OpRes FM :=
  match target with
  | .list ra =>
    match listElems st ra with
    | some es =>
      match listIndex es idx with
      | .ok o => (st, opOk o)
      | .error e => (st, some (.error e))
    | none => (st, none)
  | .str ra =>
    match strBytes st ra with
    | some bs =>
      match stringIndex bs idx with
      | .ok rbytes =>
        let (st1, nr) := heapAlloc st (.strv rbytes)
        (st1, opOk (.str nr))
      | .error e => (st, some (.error e))
    | none => (st, none)
  | _ =>
    (st, opErr .typeError "index expression not supported for this type.")

/-- Translation of `List.Set`: wraparound and bounds over the element
count, then the homogeneity check against the type of the first element,
then in-place update. -/
def listSet (es : List (Obj FM)) (idx : Int) (v : Obj FM) :
    Except GErr (List (Obj FM)) :=
  let length : Int := es.length
  let real : Int := if idx < 0 then length + idx else idx
  if real < 0 ∨ real ≥ length then .error ⟨.indexError, "index out of range."⟩
  else if (es.head?.map objType) ≠ some (objType v) then
    .error ⟨.typeError, "list elements must have consistent types."⟩
  else .ok (es.set real.toNat v)

/-- Translation of `String.Set`: the wraparound, the bounds check and the
splice all use the raw byte length (`len(s.Value)`), not the rune count. -/
def stringSet (bytes : List Nat) (idx : Int) (v : List Nat) :
    Except GErr (List Nat) :=
  let length : Int := bytes.length
  let real : Int := if idx < 0 then length + idx else idx
  if real < 0 ∨ real ≥ length then .error ⟨.indexError, "index out of range."⟩
  else .ok (bytes.take real.toNat ++ v ++ bytes.drop (real.toNat + 1))

/-- The `indexable` interface dispatch: `Set` exists on lists and strings.
A list update goes through `listSet` (bounds, then homogeneity, then the
in-place write); a nil value there is the Go panic of calling `Type()` on
it, after the bounds check.  `String.Set` requires a String value (else
TypeError "invalid assignment."); the update mutates the heap cell in
place. -/
def objSet (st : St FM) (target : Obj FM) (idx : Int)
    (v : Option (Obj FM)) : St FM × Option (Option GErr) :=
  match target with
  | .list ra =>
    match listElems st ra with
    | some es =>
      match v with
      | some vv =>
        match listSet es idx vv with
        | .ok es1 => (heapSet st ra (.listv es1), some none)
        | .error e => (st, some (some e))
      | none =>
        let length : Int := es.length
        let real : Int := if idx < 0 then length + idx else idx
        if real < 0 ∨ real ≥ length then
          (st, some (some ⟨.indexError, "index out of range."⟩))
        else (st, none)
    | none => (st, none)
  | .str ra =>
    match strBytes st ra with
    | some bs =>
      let length : Int := bs.length
      let real : Int := if idx < 0 then length + idx else idx
      if real < 0 ∨ real ≥ length then
        (st, some (some ⟨.indexError, "index out of range."⟩))
      else
        match v with
        | some (.str rv) =>
          match strBytes st rv with
          | some vb =>
            (heapSet st ra
              (.strv (bs.take real.toNat ++ vb ++ bs.drop (real.toNat + 1))),
              some none)
          | none => (st, none)
        | _ => (st, some (some ⟨.typeError, "invalid assignment."⟩))
    | none => (st, none)
  | _ => (st, none)

/-- Whether a runtime value implements the `indexable` interface. -/
def isIndexable (o : Obj FM) : Bool :=
  match o with
  | .list _ => true
  | .str _ => true
  | _ => false

end ObjectOps

/-!
The tree-walking evaluator (`internal/evaluator/evaluator.go`).

The Go evaluator carries a sticky error field `e.Err`; after every recursive
`e.Eval` the source explicitly checks `if e.Err != nil { return nil }`.
`chk` is exactly that check.  The one place without such a check — the
statement loop of `evalBlockExpression` — is translated without it.
A Go panic or fuel exhaustion tears evaluation down at the dispatchers
(`evalStmt`, `evalExpr`, `evalWithReturnValue`).

Every function of the mutual block consumes one unit of fuel on entry; the
fuel models the unbounded recursion and iteration of the source, and running
out of it yields the `fuelOut` status, never a result.
-/

section Evaluator

variable {FM : FloatModel}

/-- An evaluation result: the state plus the value the Go function returned
(`none` is Go `nil`). -/
abbrev Res (FM : FloatModel) := St FM × Option (Obj FM)

/-- Translation of the source's explicit error check after a recursive
evaluation: continue only when no error is recorded (and no panic or fuel
exhaustion has torn evaluation down). -/
def chk (r : Res FM) (k : St FM → Option (Obj FM) → Res FM) : Res FM :=
  if r.1.status = .ok then k r.1 r.2 else (r.1, none)

/-- Lift a pure object operation into an evaluation result:
an error is recorded into the sticky error state, a panic crashes. -/
def opResToRes (st : St FM) (r : OpRes FM) : Res FM :=
  match r with
  | none => (crash st, none)
  | some (.error e) => ({ st with status := .error e }, none)
  | some (.ok v) => (st, some v)

/-- Lift a state-threading object operation into an evaluation result. -/
def stOpToRes (p : St FM × OpRes FM) : Res FM :=
  opResToRes p.1 p.2

/-- Translation of `evalIdentifierExpression`: look the name up along the
scope chain; undefined names are a VariableError.  The symbol's value is
returned as stored (it is a Go interface value that may be nil). -/
def evalIdentifierExpression (st : St FM) (env : Nat) (name : String) :
    Res FM :=
  match envGet st env name with
  | none =>
    (setErr st .variableError ("undefined variable \"" ++ name ++ "\"."),
      none)
  | some sym => (st, sym.value)

/-- Translation of `evalFunctionDeclarationStatement`: redeclaration (seen
through the whole chain, via `Get`) is a VariableError; otherwise the
function value captures the current environment and is bound const in the
current scope. -/
def evalFunctionDeclarationStatement (st : St FM) (env : Nat)
    (name : String) (params : List (String × Option (Expr FM)))
    (body : Stmt FM) : Res FM :=
  match envGet st env name with
  | some _ =>
    (setErr st .variableError ("function \"" ++ name ++ "\" already defined."),
      none)
  | none =>
    (envSet st env name ⟨name, some (.fn name params body env), true⟩, none)

/-- Translation of `checkIndexTargetConst`: walk to the root of an index
chain; an undefined or const root identifier is a VariableError. -/
def checkIndexTargetConst (st : St FM) (env : Nat) :
    Expr FM → Option GErr
  | .ident n =>
    match envGet st env n with
    | none => some ⟨.variableError, "undefined variable \"" ++ n ++ "\"."⟩
    | some sym =>
      if sym.isConst then
        some ⟨.variableError, "cannot redefine constant \"" ++ n ++ "\"."⟩
      else none
  | .indexE t _ => checkIndexTargetConst st env t
  | _ => none

/-- Translation of `evalPrefixOperator` (the operator kinds cover exactly
the three tokens the source dispatches on).  A nil operand is a Go panic. -/
def evalPrefixOperator (st : St FM) (op : PreOp) (v : Option (Obj FM)) :
    Res FM :=
  match v with
  | none => (crash st, none)
  | some o =>
    match op with
    | .minus => opResToRes st (objNegative o)
    | .bang => opResToRes st (objNot o)
    | .bitNot => opResToRes st (objBitNot o)

/-- Translation of `evalInfixOperator`: dispatch on the operator and invoke
the left operand's method.  A nil left operand is a Go panic; a nil right
operand falls into the default case of the left operand's type switch
(an OperationError, except for `==`/`!=` which compare as unequal).  The
gas bounds the element recursion of list equality. -/
def evalInfixOperator (gas : Nat) (st : St FM) (op : BinOp)
    (l r : Option (Obj FM)) : Res FM :=
  match l with
  | none => (crash st, none)
  | some lv =>
    match r with
    | some rv =>
      match op with
      | .plus => stOpToRes (objAdd st lv rv)
      | .minus => stOpToRes (objSubtract st lv rv)
      | .asterisk => stOpToRes (objMultiply st lv rv)
      | .slash => stOpToRes (objDivide st lv rv)
      | .percent => stOpToRes (objMod st lv rv)
      | .equals => opResToRes st (objEqualGo st gas lv rv)
      | .notEquals => opResToRes st (objNotEqual st gas lv rv)
      | .lt => opResToRes st (objLessThan lv rv)
      | .gt => opResToRes st (objGreaterThan lv rv)
      | .lte => opResToRes st (objLessThanOrEqual lv rv)
      | .gte => opResToRes st (objGreaterThanOrEqual lv rv)
      | .bitAnd => opResToRes st (objBitAnd lv rv)
      | .bitOr => opResToRes st (objBitOr lv rv)
      | .bitXor => opResToRes st (objXor lv rv)
      | .leftShift => opResToRes st (objLeftShift lv rv)
      | .rightShift => opResToRes st (objRightShift lv rv)
      | .logicalAnd => opResToRes st (objAnd lv rv)
      | .logicalOr => opResToRes st (objOr lv rv)
    | none =>
      match op with
      | .equals => (st, some (.bool false))
      | .notEquals => (st, some (.bool true))
      | _ => (setErr st .operationError (opErrMsg op.lit), none)

/-- Binding of call arguments into the fresh function scope
(`funcEnv.Set(param.Name.Name, ...)`); `none` is the Go panic of indexing
`argument[i]` past its length. -/
def bindParams (st : St FM) (funcEnv : Nat) :
    List (String × Option (Expr FM)) → List (Option (Obj FM)) →
      Option (St FM)
  | [], _ => some st
  | (n, _) :: ps, a :: as' =>
    bindParams (envSet st funcEnv n ⟨n, a, false⟩) funcEnv ps as'
  | _ :: _, [] => none

/-- Count of parameters that carry a default expression. -/
def countDefaults (params : List (String × Option (Expr FM))) : Nat :=
  (params.filter (fun p => p.2.isSome)).length

/-- Count of supplied (non-placeholder) call arguments. -/
def countArgs {α : Type} (args : List (Option α)) : Nat :=
  (args.filter (fun a => a.isSome)).length

/-- Text of the arity ArgumentError, as built by `evalCallExpression`. -/
def arityErrMsg (P D argLen : Nat) : String :=
  if D = 0 then
    "expected " ++ toString P ++ " parameters, got " ++ toString argLen ++ "."
  else if P - D = 1 then
    "expected between 1 parameter and " ++ toString P ++
      " parameters, got " ++ toString argLen ++ "."
  else
    "expected between " ++ toString (P - D) ++ " and " ++ toString P ++
      " parameters, got " ++ toString argLen ++ "."

/-- Native implementations of the registered builtins (`object.Builtins`).
`print`/`println` record the printed object (the textual rendering and the
host I/O are outside the model); `len` counts runes of a String or elements
of a List and is a TypeError otherwise.  A missing or nil argument to
`print`/`println` is the Go panic of calling `String()` on it; `len` of a
nil argument falls into the default case of its type switch. -/
def bApply (st : St FM) (k : BKind) (args : List (Option (Obj FM))) :
    St FM × OpRes FM :=
  match k with
  | .printB | .printlnB =>
    match args.get? 0 with
    | none => (st, none)
    | some none => (st, none)
    | some (some o) => ({ st with outLog := st.outLog ++ [o] }, opOk .null)
  | .lenB =>
    match args.get? 0 with
    | none => (st, none)
    | some a =>
      match a with
      | some (.str r) =>
        match strBytes st r with
        | some bs => (st, opOk (.int ((utf8Decode bs).length : Int)))
        | none => (st, none)
      | some (.list r) =>
        match listElems st r with
        | some es => (st, opOk (.int (es.length : Int)))
        | none => (st, none)
      | _ =>
        (st, opErr .typeError
          "len() argument must be a sequence or collection.")

set_option maxHeartbeats 3200000 in
mutual

/-- Translation of the statement half of `Evaluator.Eval`. -/
def evalStmt (fuel : Nat) (st : St FM) (env : Nat) (s : Stmt FM) : Res FM :=
  match fuel with
  | 0 => (fuelStop st, none)
  | fuel + 1 =>
    if st.status.halted then (st, none)
    else
      match s with
      | .forStmt i c u b => evalForStatement fuel st env i c u b
      | .funcDecl n ps b => evalFunctionDeclarationStatement st env n ps b
      | .ret v => evalReturnStatement fuel st env v
      | .exprStmt e => evalExpressionStatement fuel st env e

termination_by structural fuel
/-- Translation of the expression half of `Evaluator.Eval`.  The literal
cases inline `evalIntExpression`, `evalFloatExpression`,
`evalBooleanExpression`, `evalNullExpression` and `evalStringExpression`
(the latter allocates a fresh string object, like Go `&String{...}`). -/
def evalExpr (fuel : Nat) (st : St FM) (env : Nat) (e : Expr FM) : Res FM :=
  match fuel with
  | 0 => (fuelStop st, none)
  | fuel + 1 =>
    if st.status.halted then (st, none)
    else
      match e with
      | .intLit v => (st, some (.int v))
      | .floatLit v => (st, some (.float v))
      | .boolLit b => (st, some (.bool b))
      | .nullLit => (st, some .null)
      | .strLit bs =>
        let p := heapAlloc st (.strv bs)
        (p.1, some (.str p.2))
      | .listLit elems => listLitGo fuel st env elems none []
      | .ident n => evalIdentifierExpression st env n
      | .grouped g => evalExpr fuel st env g
      | .unary op v => evalPrefixExpression fuel st env op v
      | .binary op l r => evalInfixExpression fuel st env op l r
      | .varInit c n v => evalVarInitializationExpression fuel st env c n v
      | .varAssign t v => evalVarAssignmentExpression fuel st env t v
      | .compoundAssign op t r =>
        evalCompoundAssignmentExpression fuel st env op t r
      | .preIncDec op r => evalPrefixUnaryIncDecExpression fuel st env op r
      | .postIncDec op l => evalPostfixUnaryIncDecExpression fuel st env op l
      | .block stmts =>
        let p := envAlloc st (some env)
        blockGo fuel p.1 p.2 stmts none
      | .ifE c cs alt => evalIfExpression fuel st env c cs alt
      | .call f args => evalCallExpression fuel st env f args
      | .indexE t i => evalIndexExpression fuel st env t i

termination_by structural fuel
/-- Translation of `evalProgram`: run the statements in order, stopping at
the first recorded error; the program value is always nil. -/
def evalProgram (fuel : Nat) (st : St FM) (env : Nat) :
    List (Stmt FM) → Res FM
  | stmts =>
    match fuel with
    | 0 => (fuelStop st, none)
    | fuel + 1 =>
      match stmts with
      | [] => (st, none)
      | s :: rest =>
        chk (evalStmt fuel st env s) fun st1 _ =>
          evalProgram fuel st1 env rest

termination_by structural fuel
/-- Translation of `evalForStatement`: fresh loop scope, initializer,
then the condition (must be Bool) and the loop proper. -/
def evalForStatement (fuel : Nat) (st : St FM) (env : Nat)
    (init : Stmt FM) (cond : Expr FM) (update : Stmt FM) (body : Stmt FM) :
    Res FM :=
  match fuel with
  | 0 => (fuelStop st, none)
  | fuel + 1 =>
    let p := envAlloc st (some env)
    chk (evalStmt fuel p.1 p.2 init) fun st1 _ =>
      chk (evalExpr fuel st1 p.2 cond) fun st2 condv =>
        match condv with
        | some (.bool b) => forLoop fuel st2 p.2 b cond update body
        | _ =>
          (setErr st2 .typeError "non-bool condition in for loop.", none)

termination_by structural fuel
/-- The iteration of `evalForStatement`: body, `return` detection, update,
then the re-evaluated condition (must be Bool again). -/
def forLoop (fuel : Nat) (st : St FM) (env : Nat) (condTrue : Bool)
    (cond : Expr FM) (update : Stmt FM) (body : Stmt FM) : Res FM :=
  match fuel with
  | 0 => (fuelStop st, none)
  | fuel + 1 =>
    if condTrue = false then (st, none)
    else
      chk (evalStmt fuel st env body) fun st1 ret =>
        match ret with
        | some (.retVal v) => (st1, some (.retVal v))
        | _ =>
          chk (evalStmt fuel st1 env update) fun st2 _ =>
            chk (evalExpr fuel st2 env cond) fun st3 condv =>
              match condv with
              | some (.bool b) => forLoop fuel st3 env b cond update body
              | _ =>
                (setErr st3 .typeError "non-bool condition in for loop.",
                  none)

termination_by structural fuel
/-- Translation of `evalReturnStatement`: `return` at the root frame is a
SyntaxError; otherwise the value is wrapped into a ReturnValue. -/
def evalReturnStatement (fuel : Nat) (st : St FM) (env : Nat)
    (v : Expr FM) : Res FM :=
  match fuel with
  | 0 => (fuelStop st, none)
  | fuel + 1 =>
    match st.frame.parent with
    | none =>
      (setErr st .syntaxError
        "return statement is only allowed inside functions.", none)
    | some _ =>
      chk (evalExpr fuel st env v) fun st1 rv => (st1, some (.retVal rv))

termination_by structural fuel
/-- Translation of `evalExpressionStatement`: evaluate and drop the value,
but forward a ReturnValue. -/
def evalExpressionStatement (fuel : Nat) (st : St FM) (env : Nat)
    (e : Expr FM) : Res FM :=
  match fuel with
  | 0 => (fuelStop st, none)
  | fuel + 1 =>
    chk (evalExpr fuel st env e) fun st1 ret =>
      match ret with
      | some (.retVal v) => (st1, some (.retVal v))
      | _ => (st1, none)

termination_by structural fuel
/-- The element loop of `evalListExpression`: the first element fixes the
list's element type, later elements must match it (else TypeError), and the
list object is allocated when the loop completes. -/
def listLitGo (fuel : Nat) (st : St FM) (env : Nat) (elems : List (Expr FM))
    (firstType : Option String) (acc : List (Obj FM)) : Res FM :=
  match fuel with
  | 0 => (fuelStop st, none)
  | fuel + 1 =>
    match elems with
    | [] =>
      let p := heapAlloc st (.listv acc)
      (p.1, some (.list p.2))
    | e :: rest =>
      chk (evalExpr fuel st env e) fun st1 v =>
        match v with
        | none => (crash st1, none)
        | some el =>
          match firstType with
          | none => listLitGo fuel st1 env rest (some (objType el)) (acc ++ [el])
          | some ft =>
            if objType el ≠ ft then
              (setErr st1 .typeError
                "list elements must have consistent types.", none)
            else listLitGo fuel st1 env rest (some ft) (acc ++ [el])

termination_by structural fuel
/-- Translation of `evalVarInitializationExpression`: re-declaration in the
current scope is a VariableError; otherwise bind in the current scope. -/
def evalVarInitializationExpression (fuel : Nat) (st : St FM) (env : Nat)
    (isConst : Bool) (name : String) (value : Expr FM) : Res FM :=
  match fuel with
  | 0 => (fuelStop st, none)
  | fuel + 1 =>
    if envExists st env name then
      (setErr st .variableError
        ("variable \"" ++ name ++ "\" already defined."), none)
    else
      chk (evalExpr fuel st env value) fun st1 v =>
        (envSet st1 env name ⟨name, v, isConst⟩, v)

termination_by structural fuel
/-- Translation of `evalVarAssignmentExpression`.  Identifier targets: the
name must exist (through the chain) and not be const; the new symbol is
stored with `Assign` (nearest defining scope).  Index targets: the chain
root must not be const, the index must be an Int, the target must be
indexable, and the element update goes through `Set`. -/
def evalVarAssignmentExpression (fuel : Nat) (st : St FM) (env : Nat)
    (target : Expr FM) (value : Expr FM) : Res FM :=
  match fuel with
  | 0 => (fuelStop st, none)
  | fuel + 1 =>
    match target with
    | .ident name =>
      match envGet st env name with
      | none =>
        (setErr st .variableError
          ("undefined variable \"" ++ name ++ "\"."), none)
      | some sym =>
        if sym.isConst then
          (setErr st .variableError
            ("cannot redefine constant \"" ++ name ++ "\"."), none)
        else
          chk (evalExpr fuel st env value) fun st1 v =>
            (envAssign st1 env name ⟨name, v, false⟩, v)
    | .indexE t idxExpr =>
      match checkIndexTargetConst st env t with
      | some e => ({ st with status := .error e }, none)
      | none =>
        chk (evalExpr fuel st env t) fun st1 targv =>
          chk (evalExpr fuel st1 env idxExpr) fun st2 idxv =>
            match idxv with
            | some (.int i) =>
              match targv with
              | some tv =>
                if isIndexable tv then
                  chk (evalExpr fuel st2 env value) fun st3 v =>
                    match objSet st3 tv i v with
                    | (st4, some none) => (st4, v)
                    | (st4, some (some e)) =>
                      ({ st4 with status := .error e }, none)
                    | (st4, none) => (crash st4, none)
                else
                  (setErr st2 .typeError
                    "index expression not supported for this type.", none)
              | none =>
                (setErr st2 .typeError
                  "index expression not supported for this type.", none)
            | _ => (setErr st2 .typeError "index must be integer.", none)
    | _ => (setErr st .typeError "invalid variable name type.", none)

termination_by structural fuel
/-- Translation of `evalCompoundAssignmentExpression`: the target is read,
the right operand evaluated, the base operator of the compound operator is
applied through the generic dispatch, and the result is written back
(`Assign` for identifiers, `Set` for index targets, which also re-evaluates
the index expression to obtain the current element value). -/
def evalCompoundAssignmentExpression (fuel : Nat) (st : St FM) (env : Nat)
    (op : CompOp) (target : Expr FM) (right : Expr FM) : Res FM :=
  match fuel with
  | 0 => (fuelStop st, none)
  | fuel + 1 =>
    match target with
    | .ident name =>
      match envGet st env name with
      | none =>
        (setErr st .variableError
          ("undefined variable \"" ++ name ++ "\"."), none)
      | some sym =>
        if sym.isConst then
          (setErr st .variableError
            ("cannot redefine constant \"" ++ name ++ "\"."), none)
        else
          chk (evalExpr fuel st env right) fun st1 rv =>
            chk (evalInfixOperator fuel st1 (compBase op) sym.value rv)
              fun st2 v => (envAssign st2 env name ⟨name, v, false⟩, v)
    | .indexE t idxExpr =>
      match checkIndexTargetConst st env t with
      | some e => ({ st with status := .error e }, none)
      | none =>
        chk (evalExpr fuel st env t) fun st1 targv =>
          chk (evalExpr fuel st1 env idxExpr) fun st2 idxv =>
            match idxv with
            | some (.int i) =>
              match targv with
              | some tv =>
                if isIndexable tv then
                  chk (evalExpr fuel st2 env right) fun st3 rv =>
                    chk (evalExpr fuel st3 env (.indexE t idxExpr))
                      fun st4 idxVal =>
                      chk (evalInfixOperator fuel st4 (compBase op) idxVal rv)
                        fun st5 v =>
                        match objSet st5 tv i v with
                        | (st6, some none) => (st6, v)
                        | (st6, some (some e)) =>
                          ({ st6 with status := .error e }, none)
                        | (st6, none) => (crash st6, none)
                else
                  (setErr st2 .typeError
                    "index expression not supported for this type.", none)
              | none =>
                (setErr st2 .typeError
                  "index expression not supported for this type.", none)
            | _ => (setErr st2 .typeError "index must be integer.", none)
    | _ => (setErr st .typeError "invalid variable name type.", none)

termination_by structural fuel
/-- Translation of `evalPrefixExpression`: evaluate the operand, then the
unary operator. -/
def evalPrefixExpression (fuel : Nat) (st : St FM) (env : Nat) (op : PreOp)
    (value : Expr FM) : Res FM :=
  match fuel with
  | 0 => (fuelStop st, none)
  | fuel + 1 =>
    chk (evalExpr fuel st env value) fun st1 v =>
      evalPrefixOperator st1 op v

termination_by structural fuel
/-- Translation of `evalInfixExpression`: evaluate the left operand; for
`&&` and `||` the left operand must be Bool and a decided result returns
without evaluating the right operand; otherwise evaluate the right operand
and dispatch on the operator. -/
def evalInfixExpression (fuel : Nat) (st : St FM) (env : Nat) (op : BinOp)
    (left : Expr FM) (right : Expr FM) : Res FM :=
  match fuel with
  | 0 => (fuelStop st, none)
  | fuel + 1 =>
    chk (evalExpr fuel st env left) fun st1 lv =>
      let rest : St FM → Option (Obj FM) → Res FM := fun st1 lv =>
        chk (evalExpr fuel st1 env right) fun st2 rv =>
          evalInfixOperator fuel st2 op lv rv
      if op = .logicalAnd then
        match lv with
        | some (.bool b) =>
          if b = false then (st1, some (.bool false)) else rest st1 lv
        | _ => (setErr st1 .operationError (opErrMsg "&&"), none)
      else if op = .logicalOr then
        match lv with
        | some (.bool b) =>
          if b = true then (st1, some (.bool true)) else rest st1 lv
        | _ => (setErr st1 .operationError (opErrMsg "||"), none)
      else rest st1 lv

termination_by structural fuel
/-- Translation of `evalPrefixUnaryIncDecExpression`: a non-const,
defined identifier (or a non-const-rooted index target) is read, combined
with `Int 1` under `+` or `-` through the generic dispatch, and the result
is written back — with `Set` into the current scope for identifiers, with
the indexable `Set` for index targets.  The updated value is returned. -/
def evalPrefixUnaryIncDecExpression (fuel : Nat) (st : St FM) (env : Nat)
    (op : IncDecOp) (right : Expr FM) : Res FM :=
  match fuel with
  | 0 => (fuelStop st, none)
  | fuel + 1 =>
    match right with
    | .ident name =>
      match envGet st env name with
      | none =>
        (setErr st .variableError
          ("undefined variable \"" ++ name ++ "\"."), none)
      | some sym =>
        if sym.isConst then
          (setErr st .variableError
            ("cannot redefine constant \"" ++ name ++ "\"."), none)
        else
          chk (evalExpr fuel st env (.ident name)) fun st1 rv =>
            let bop : BinOp :=
              match op with
              | .increment => .plus
              | .decrement => .minus
            chk (evalInfixOperator fuel st1 bop rv (some (.int 1)))
              fun st2 v => (envSet st2 env name ⟨name, v, false⟩, v)
    | .indexE t idxExpr =>
      match checkIndexTargetConst st env t with
      | some e => ({ st with status := .error e }, none)
      | none =>
        chk (evalExpr fuel st env t) fun st1 targv =>
          chk (evalExpr fuel st1 env idxExpr) fun st2 idxv =>
            match idxv with
            | some (.int i) =>
              match targv with
              | some tv =>
                if isIndexable tv then
                  chk (evalExpr fuel st2 env (.indexE t idxExpr))
                    fun st3 rv =>
                    let bop : BinOp :=
                      match op with
                      | .increment => .plus
                      | .decrement => .minus
                    chk (evalInfixOperator fuel st3 bop rv (some (.int 1)))
                      fun st4 v =>
                      match objSet st4 tv i v with
                      | (st5, some none) => (st5, v)
                      | (st5, some (some e)) =>
                        ({ st5 with status := .error e }, none)
                      | (st5, none) => (crash st5, none)
                else
                  (setErr st2 .typeError
                    "index expression not supported for this type.", none)
              | none =>
                (setErr st2 .typeError
                  "index expression not supported for this type.", none)
            | _ => (setErr st2 .typeError "index must be integer.", none)
    | _ => (setErr st .typeError "invalid variable name type.", none)

termination_by structural fuel
/-- Translation of `evalPostfixUnaryIncDecExpression`: like the prefix
form, but the value from before the update is returned. -/
def evalPostfixUnaryIncDecExpression (fuel : Nat) (st : St FM) (env : Nat)
    (op : IncDecOp) (left : Expr FM) : Res FM :=
  match fuel with
  | 0 => (fuelStop st, none)
  | fuel + 1 =>
    match left with
    | .ident name =>
      match envGet st env name with
      | none =>
        (setErr st .variableError
          ("undefined variable \"" ++ name ++ "\"."), none)
      | some sym =>
        if sym.isConst then
          (setErr st .variableError
            ("cannot redefine constant \"" ++ name ++ "\"."), none)
        else
          chk (evalExpr fuel st env (.ident name)) fun st1 lv =>
            let bop : BinOp :=
              match op with
              | .increment => .plus
              | .decrement => .minus
            chk (evalInfixOperator fuel st1 bop lv (some (.int 1)))
              fun st2 v => (envSet st2 env name ⟨name, v, false⟩, lv)
    | .indexE t idxExpr =>
      match checkIndexTargetConst st env t with
      | some e => ({ st with status := .error e }, none)
      | none =>
        chk (evalExpr fuel st env t) fun st1 targv =>
          chk (evalExpr fuel st1 env idxExpr) fun st2 idxv =>
            match idxv with
            | some (.int i) =>
              match targv with
              | some tv =>
                if isIndexable tv then
                  chk (evalIndexExpression fuel st2 env t idxExpr)
                    fun st3 lv =>
                    let bop : BinOp :=
                      match op with
                      | .increment => .plus
                      | .decrement => .minus
                    chk (evalInfixOperator fuel st3 bop lv (some (.int 1)))
                      fun st4 v =>
                      match objSet st4 tv i v with
                      | (st5, some none) => (st5, lv)
                      | (st5, some (some e)) =>
                        ({ st5 with status := .error e }, none)
                      | (st5, none) => (crash st5, none)
                else
                  (setErr st2 .typeError
                    "index expression not supported for this type.", none)
              | none =>
                (setErr st2 .typeError
                  "index expression not supported for this type.", none)
            | _ => (setErr st2 .typeError "index must be integer.", none)
    | _ => (setErr st .typeError "invalid variable name type.", none)

termination_by structural fuel
/-- Translation of `evalWithReturnValue`: expression statements pass their
value through, `return` statements wrap it, every other statement runs and
either forwards a ReturnValue or yields Null. -/
def evalWithReturnValue (fuel : Nat) (st : St FM) (env : Nat) (s : Stmt FM) :
    Res FM :=
  match fuel with
  | 0 => (fuelStop st, none)
  | fuel + 1 =>
    if st.status.halted then (st, none)
    else
      match s with
      | .exprStmt e => chk (evalExpr fuel st env e) fun st1 ret => (st1, ret)
      | .ret v =>
        chk (evalExpr fuel st env v) fun st1 ret =>
          (st1, some (.retVal ret))
      | s =>
        chk (evalStmt fuel st env s) fun st1 ret =>
          match ret with
          | some (.retVal v) => (st1, some (.retVal v))
          | _ => (st1, some .null)

termination_by structural fuel
/-- The statement loop of `evalBlockExpression`: no error check between
statements (the source has none there); a ReturnValue short-circuits; the
value of the block is the value of its last statement. -/
def blockGo (fuel : Nat) (st : St FM) (env : Nat) (stmts : List (Stmt FM))
    (ret : Option (Obj FM)) : Res FM :=
  match fuel with
  | 0 => (fuelStop st, none)
  | fuel + 1 =>
    match stmts with
    | [] => (st, ret)
    | s :: rest =>
      let r := evalWithReturnValue fuel st env s
      match r.2 with
      | some (.retVal v) => (r.1, some (.retVal v))
      | _ => blockGo fuel r.1 env rest r.2

termination_by structural fuel
/-- Translation of `evalIfExpression`: the condition must be Bool, the
taken branch runs in a fresh scope, a missing else branch yields Null. -/
def evalIfExpression (fuel : Nat) (st : St FM) (env : Nat) (cond : Expr FM)
    (cons : Stmt FM) (alt : Option (Stmt FM)) : Res FM :=
  match fuel with
  | 0 => (fuelStop st, none)
  | fuel + 1 =>
    chk (evalExpr fuel st env cond) fun st1 condv =>
      match condv with
      | some (.bool b) =>
        let p := envAlloc st1 (some env)
        if b then evalWithReturnValue fuel p.1 p.2 cons
        else
          match alt with
          | some a => evalWithReturnValue fuel p.1 p.2 a
          | none => (p.1, some .null)
      | _ =>
        (setErr st1 .typeError "non-bool condition in if expression.", none)

termination_by structural fuel
/-- The first argument loop of `evalCallExpression` for `Function` callees:
supplied arguments evaluate in the caller's environment; a placeholder
evaluates the default expression of the parameter at the current position,
also in the caller's environment; a placeholder at a position without a
parameter or without a default is the corresponding Go panic. -/
def fillArgs (fuel : Nat) (st : St FM) (env : Nat)
    (params : List (String × Option (Expr FM)))
    (args : List (Option (Expr FM))) (acc : List (Option (Obj FM))) :
    St FM × Option (List (Option (Obj FM))) :=
  match fuel with
  | 0 => (fuelStop st, none)
  | fuel + 1 =>
    match args with
    | [] => (st, some acc)
    | none :: rest =>
      match params.get? acc.length with
      | some (_, some dflt) =>
        let r := evalExpr fuel st env dflt
        if r.1.status = .ok then
          fillArgs fuel r.1 env params rest (acc ++ [r.2])
        else (r.1, none)
      | some (_, none) => (crash st, none)
      | none => (crash st, none)
    | some a :: rest =>
      let r := evalExpr fuel st env a
      if r.1.status = .ok then
        fillArgs fuel r.1 env params rest (acc ++ [r.2])
      else (r.1, none)

termination_by structural fuel
/-- The second argument loop of `evalCallExpression` for `Function`
callees: remaining parameters are filled from their defaults, evaluated in
the caller's environment; a missing default is the corresponding Go panic. -/
def fillRest (fuel : Nat) (st : St FM) (env : Nat)
    (params : List (String × Option (Expr FM)))
    (acc : List (Option (Obj FM))) :
    St FM × Option (List (Option (Obj FM))) :=
  match fuel with
  | 0 => (fuelStop st, none)
  | fuel + 1 =>
    match params.get? acc.length with
    | none => (st, some acc)
    | some (_, some dflt) =>
      let r := evalExpr fuel st env dflt
      if r.1.status = .ok then fillRest fuel r.1 env params (acc ++ [r.2])
      else (r.1, none)
    | some (_, none) => (crash st, none)

termination_by structural fuel
/-- The first argument loop of `evalCallExpression` for `BuiltinFunction`
callees.  A placeholder makes the source evaluate an entry of the
builtin's `DefaultValue` slice as an AST node, which is a Go panic for
every possible entry (and every registered builtin declares none). -/
def fillArgsB (fuel : Nat) (st : St FM) (env : Nat)
    (args : List (Option (Expr FM))) (acc : List (Option (Obj FM))) :
    St FM × Option (List (Option (Obj FM))) :=
  match fuel with
  | 0 => (fuelStop st, none)
  | fuel + 1 =>
    match args with
    | [] => (st, some acc)
    | none :: _ => (crash st, none)
    | some a :: rest =>
      let r := evalExpr fuel st env a
      if r.1.status = .ok then
        fillArgsB fuel r.1 env rest (acc ++ [r.2])
      else (r.1, none)

termination_by structural fuel
/-- Translation of `evalCallExpression`.  For a `Function`: the arity check
over non-placeholder arguments, the two filling loops (defaults evaluate in
the caller's environment), a fresh scope over the function's captured
environment, a frame push, the body, and — only when no error is recorded —
the frame pop and the ReturnValue unwrap.  For a `BuiltinFunction`: the
same arity contract, then the native implementation between the same frame
push and pop.  Calling any other value is a TypeError. -/
def evalCallExpression (fuel : Nat) (st : St FM) (env : Nat) (f : Expr FM)
    (args : List (Option (Expr FM))) : Res FM :=
  match fuel with
  | 0 => (fuelStop st, none)
  | fuel + 1 =>
    chk (evalExpr fuel st env f) fun st1 fv =>
      match fv with
      | some (.fn fname params body fenv) =>
        let P := params.length
        let defaultLen := countDefaults params
        let argLen := countArgs args
        if ¬(P - defaultLen ≤ argLen ∧ argLen ≤ P) then
          (setErr st1 .argumentError (arityErrMsg P defaultLen argLen), none)
        else
          match fillArgs fuel st1 env params args [] with
          | (st2, none) => (st2, none)
          | (st2, some argument1) =>
            match fillRest fuel st2 env params argument1 with
            | (st3, none) => (st3, none)
            | (st3, some argument) =>
              let p := envAlloc st3 (some fenv)
              let st5 :=
                { p.1 with
                  frame :=
                    .child ("<function \"" ++ fname ++ "\">") p.1.frame }
              match bindParams st5 p.2 params argument with
              | none => (crash st5, none)
              | some st6 =>
                let r := evalWithReturnValue fuel st6 p.2 body
                if r.1.status = .ok then
                  let st7 :=
                    { r.1 with
                      frame :=
                        match r.1.frame.parent with
                        | some par => par
                        | none => r.1.frame }
                  match r.2 with
                  | some (.retVal v) => (st7, v)
                  | other => (st7, other)
                else (r.1, none)
      | some (.builtin bname bparams bdefaults impl) =>
        let P := bparams.length
        let defaultLen := bdefaults.length
        let argLen := countArgs args
        if ¬(P - defaultLen ≤ argLen ∧ argLen ≤ P) then
          (setErr st1 .argumentError (arityErrMsg P defaultLen argLen), none)
        else
          match fillArgsB fuel st1 env args [] with
          | (st2, none) => (st2, none)
          | (st2, some argument) =>
            if argument.length < P then (crash st2, none)
            else
              let st5 :=
                { st2 with
                  frame :=
                    .child ("<builtin \"" ++ bname ++ "\">") st2.frame }
              match bApply st5 impl argument with
              | (stB, none) => (crash stB, none)
              | (stB, some (.error e)) =>
                ({ stB with status := .error e }, none)
              | (stB, some (.ok v)) =>
                let st7 :=
                  { stB with
                    frame :=
                      match stB.frame.parent with
                      | some par => par
                      | none => stB.frame }
                (st7, some v)
      | _ =>
        (setErr st1 .typeError
          "the value is not a function and cannot be called.", none)

termination_by structural fuel
/-- Translation of `evalIndexExpression`: target and index evaluate, the
index must be an Int, then the target's `Index` method decides. -/
def evalIndexExpression (fuel : Nat) (st : St FM) (env : Nat)
    (t : Expr FM) (idxExpr : Expr FM) : Res FM :=
  match fuel with
  | 0 => (fuelStop st, none)
  | fuel + 1 =>
    chk (evalExpr fuel st env t) fun st1 targv =>
      chk (evalExpr fuel st1 env idxExpr) fun st2 idxv =>
        match idxv with
        | some (.int i) =>
          match targv with
          | some tv => stOpToRes (objIndex st2 tv i)
          | none => (crash st2, none)
        | _ => (setErr st2 .typeError "index must be integer.", none)
termination_by structural fuel

end

end Evaluator

/-!
Shared definitions for the theorems: the initial interpreter state of a
top-level run, and the list homogeneity predicate.
-/

/-- Initial state of a top-level run: one root scope, an empty heap, the
root frame (the runner labels it with the script name; the label does not
affect evaluation) and a clean status.  The runner additionally seeds the
root scope with const builtin bindings, which none of the programs below
look up by name. -/
def initSt (FM : FloatModel) : St FM :=
  ⟨[⟨[], none⟩], [], .root "<main>", .ok, []⟩

/-- Every element of the list has the type of the first element. -/
def homogeneous {FM : FloatModel} (es : List (Obj FM)) : Prop :=
  ∀ o ∈ es, es.head?.map objType = some (objType o)

/-- Root identifier of an index chain (the name `checkIndexTargetConst`
recurses to). -/
def rootIdent {FM : FloatModel} : Expr FM → Option String
  | .ident n => some n
  | .indexE t _ => rootIdent t
  | _ => none

/-!
Claim C5 — numeric promotion of the binary arithmetic operations.
-/

/-- Frame-and-status preservation from one state to another: when the
second state carries no error, panic or fuel exhaustion, then the first
did not either, and the current frame is unchanged between them. -/
def framePres (st0 st1 : St FM) : Prop :=
  st1.status = .ok → st0.status = .ok ∧ st1.frame = st0.frame

/-- A one-scope state binding x to Int 5, for the C10 witness. -/
def stC10 : St ratFM :=
  ⟨[⟨[("x", ⟨"x", some (.int 5), false⟩)], none⟩], [], .root "<main>",
    .ok, []⟩

/-- A two-scope state: the outer scope (id 0) binds x to Int 5, the current
scope (id 1) is empty and chains to it. -/
def stC1 : St ratFM :=
  ⟨[⟨[("x", ⟨"x", some (.int 5), false⟩)], none⟩, ⟨[], some 0⟩], [],
    .root "<main>", .ok, []⟩

/-- A one-scope state with a const binding k = 1, for the C7 witness. -/
def stC7 : St ratFM :=
  ⟨[⟨[("k", ⟨"k", some (.int 1), true⟩)], none⟩], [], .root "<main>",
    .ok, []⟩

/-- Int view of an object (`some v` exactly for `Int v`), used to state
decidable facts about concrete runs. -/
def objIntVal {FM : FloatModel} : Obj FM → Option Int
  | .int v => some v
  | _ => none

/-- Int view of a heap cell: the element values of an all-Int list. -/
def heapIntList {FM : FloatModel} (st : St FM) (r : Nat) :
    Option (List (Option Int)) :=
  match heapGet st r with
  | some (.listv es) => some (es.map objIntVal)
  | _ => none

/-- Integer bound under a name, through the decidable Int projection. -/
def envIntVal {FM : FloatModel} (st : St FM) (env : Nat) (x : String) :
    Option Int :=
  match envGet st env x with
  | some s => s.value.bind objIntVal
  | none => none

/-- A state binding "f" to the function of the C4 spec example and "lenb"
to the `len` builtin value. -/
def stC4 : St ratFM :=
  ⟨[⟨[("f", ⟨"f", some (.fn "f" [("a", none), ("b", some (.intLit 2))]
        (.ret (.binary .plus (.ident "a") (.ident "b"))) 0), false⟩),
     ("lenb", ⟨"lenb", some (.builtin "len" ["object"] [] .lenB),
        false⟩)], none⟩],
    [], .root "<main>", .ok, []⟩

/-- C5.  Int-op-Float in either order promotes the Int operand and yields a
Float; Int-op-Int stays Int for addition, subtraction, multiplication and
modulo (nonzero divisor), while Int division always yields the Float of the
promoted quotient, and Int mod Float (nonzero) yields a Float.  The state
is untouched by all of these. -/
theorem c5_numeric_promotion (FM : FloatModel) (st : St FM) (a a2 : Int)
    (b : FM.F) (hz : FM.feq b FM.zero = false) (h2 : a2 ≠ 0) :
    objAdd st (.int a) (.float b) =
      (st, opOk (.float (FM.fadd (FM.ofInt a) b))) ∧
    objAdd st (.float b) (.int a) =
      (st, opOk (.float (FM.fadd b (FM.ofInt a)))) ∧
    objSubtract st (.int a) (.float b) =
      (st, opOk (.float (FM.fsub (FM.ofInt a) b))) ∧
    objSubtract st (.float b) (.int a) =
      (st, opOk (.float (FM.fsub b (FM.ofInt a)))) ∧
    objMultiply st (.int a) (.float b) =
      (st, opOk (.float (FM.fmul (FM.ofInt a) b))) ∧
    objMultiply st (.float b) (.int a) =
      (st, opOk (.float (FM.fmul b (FM.ofInt a)))) ∧
    objDivide st (.int a) (.float b) =
      (st, opOk (.float (FM.fdiv (FM.ofInt a) b))) ∧
    objDivide st (.float b) (.int a2) =
      (st, opOk (.float (FM.fdiv b (FM.ofInt a2)))) ∧
    objMod st (.int a) (.float b) =
      (st, opOk (.float (FM.fmod (FM.ofInt a) b))) ∧
    objAdd st (.int a) (.int a2) = (st, opOk (.int (i64add a a2))) ∧
    objSubtract st (.int a) (.int a2) = (st, opOk (.int (i64sub a a2))) ∧
    objMultiply st (.int a) (.int a2) = (st, opOk (.int (i64mul a a2))) ∧
    objMod st (.int a) (.int a2) = (st, opOk (.int (i64mod a a2))) ∧
    objDivide st (.int a) (.int a2) =
      (st, opOk (.float (FM.fdiv (FM.ofInt a) (FM.ofInt a2)))) := by
  refine ⟨rfl, rfl, rfl, rfl, rfl, rfl, ?_, ?_, ?_, rfl, rfl, rfl, ?_, ?_⟩ <;>
    simp [objDivide, objMod, hz, h2]

/-- Witness for C5 at the rational float model: the hypotheses hold at
`b = 5` and `a2 = 2`, and the promotion equations follow. -/
theorem c5_numeric_promotion_witness :
    ratFM.feq (5 : Rat) ratFM.zero = false ∧ (2 : Int) ≠ 0 ∧
    objAdd (initSt ratFM) (.int 3) (.float (5 : Rat)) =
      (initSt ratFM, opOk (.float ((3 : Rat) + 5))) ∧
    objDivide (initSt ratFM) (.int 1) (.int 2) =
      (initSt ratFM, opOk (.float ((1 : Rat) / 2))) := by
  refine ⟨by decide, by decide, ?_, ?_⟩
  · exact (c5_numeric_promotion ratFM (initSt ratFM) 3 2 (5 : Rat)
      (by decide) (by decide)).1
  · exact (c5_numeric_promotion ratFM (initSt ratFM) 1 2 (5 : Rat)
      (by decide) (by decide)).2.2.2.2.2.2.2.2.2.2.2.2.2

/-!
Claim C6 — division and modulo by zero are MathErrors.
-/

/-- C6.  Every division or modulo with a numeric left operand and a zero
right operand (Int 0 or a float equal to zero) yields exactly the MathError
"division by zero." with no result value and no state change (in
particular evaluation continues in the torn-down-free error regime, it
does not crash); the two spec examples `1/0;` and `1.0/0.0;` evaluate to
that error at the program level. -/
theorem c6_division_by_zero (FM : FloatModel) (st : St FM) (a : Int)
    (f g : FM.F) (hg : FM.feq g FM.zero = true) :
    objDivide st (.int a) (.int 0) =
      (st, opErr .mathError "division by zero.") ∧
    objDivide st (.int a) (.float g) =
      (st, opErr .mathError "division by zero.") ∧
    objDivide st (.float f) (.int 0) =
      (st, opErr .mathError "division by zero.") ∧
    objDivide st (.float f) (.float g) =
      (st, opErr .mathError "division by zero.") ∧
    objMod st (.int a) (.int 0) =
      (st, opErr .mathError "division by zero.") ∧
    objMod st (.int a) (.float g) =
      (st, opErr .mathError "division by zero.") ∧
    objMod st (.float f) (.int 0) =
      (st, opErr .mathError "division by zero.") ∧
    objMod st (.float f) (.float g) =
      (st, opErr .mathError "division by zero.") ∧
    (evalProgram 10 (initSt FM) 0
        [.exprStmt (.binary .slash (.intLit 1) (.intLit 0))]).1.status =
      .error ⟨.mathError, "division by zero."⟩ ∧
    (evalProgram 10 (initSt FM) 0
        [.exprStmt (.binary .slash (.floatLit f) (.floatLit g))]).1.status =
      .error ⟨.mathError, "division by zero."⟩ := by
  refine ⟨?_, ?_, ?_, ?_, ?_, ?_, ?_, ?_, rfl, ?_⟩ <;>
    simp [objDivide, objMod, hg, evalProgram, evalStmt,
      evalExpressionStatement, evalExpr, evalInfixExpression, chk,
      evalInfixOperator, stOpToRes, opResToRes, Status.halted, initSt,
      setErr, opErr]

/-- Witness for C6 at the rational float model with the zero literal. -/
theorem c6_division_by_zero_witness :
    ratFM.feq ratFM.zero ratFM.zero = true ∧
    objDivide (initSt ratFM) (.int 1) (.int 0) =
      (initSt ratFM, opErr .mathError "division by zero.") ∧
    (evalProgram 10 (initSt ratFM) 0
        [.exprStmt (.binary .slash (.floatLit (1 : Rat))
          (.floatLit ratFM.zero))]).1.status =
      .error ⟨.mathError, "division by zero."⟩ := by
  refine ⟨by decide, ?_, ?_⟩
  · exact (c6_division_by_zero ratFM (initSt ratFM) 1 (1 : Rat) ratFM.zero
      (by decide)).1
  · exact (c6_division_by_zero ratFM (initSt ratFM) 1 (1 : Rat) ratFM.zero
      (by decide)).2.2.2.2.2.2.2.2.2

/-!
Claim C3 — string indexing (rune view) versus string index assignment
(byte view).  The source file defines `String.Index` over the decoded
runes but `String.Set` over the raw bytes, so the claim's assignment half
contradicts the code on any multi-byte string.
-/

/-- C3 is a code bug.  Take the one-code-point string "é", whose UTF-8
bytes are C3 A9.  Reading is rune-based: index 0 returns the whole
code point and index 1 is out of range — exactly as the claim says.  But
`String.Set` wraps and bounds-checks with the byte length 2, so the
assignment s[1] = "x" is accepted and splices the second byte, producing
the invalid byte sequence C3 78 — where the claim (code-point based)
demands an IndexError.  The spec's own words ("String indexing is
code-point based, not byte based") and `String.Index` show the intent. -/
theorem c3_string_set_byte_based :
    utf8Decode [0xC3, 0xA9] = [0xE9] ∧
    stringIndex [0xC3, 0xA9] 0 = .ok [0xC3, 0xA9] ∧
    stringIndex [0xC3, 0xA9] 1 =
      .error ⟨.indexError, "index out of range."⟩ ∧
    stringSet [0xC3, 0xA9] 1 (asciiBytes "x") = .ok [0xC3, 0x78] ∧
    stringSet [0xC3, 0xA9] 0 (asciiBytes "x") = .ok [0x78, 0xA9] :=
  ⟨rfl, rfl, rfl, rfl, rfl⟩

/-!
Claim C10 — value of prefix versus postfix increment/decrement on an
identifier holding an Int.
-/

/-- C10.  For a defined, non-const identifier holding an Int: the postfix
forms evaluate to the value held before the update and the prefix forms to
the updated value; in all four cases the updated symbol is stored back
(into the current scope, via `Set`). -/
theorem c10_incdec_values (FM : FloatModel) (fuel : Nat) (st : St FM)
    (env : Nat) (x : String) (s : Symbol FM) (v : Int)
    (hok : st.status = .ok)
    (hs : envGet st env x = some s)
    (hv : s.value = some (.int v))
    (hc : s.isConst = false) :
    evalExpr (fuel + 3) st env (.postIncDec .increment (.ident x)) =
      (envSet st env x ⟨x, some (.int (i64add v 1)), false⟩,
        some (.int v)) ∧
    evalExpr (fuel + 3) st env (.postIncDec .decrement (.ident x)) =
      (envSet st env x ⟨x, some (.int (i64sub v 1)), false⟩,
        some (.int v)) ∧
    evalExpr (fuel + 3) st env (.preIncDec .increment (.ident x)) =
      (envSet st env x ⟨x, some (.int (i64add v 1)), false⟩,
        some (.int (i64add v 1))) ∧
    evalExpr (fuel + 3) st env (.preIncDec .decrement (.ident x)) =
      (envSet st env x ⟨x, some (.int (i64sub v 1)), false⟩,
        some (.int (i64sub v 1))) := by
  refine ⟨?_, ?_, ?_, ?_⟩ <;>
    simp [evalExpr, evalPostfixUnaryIncDecExpression,
      evalPrefixUnaryIncDecExpression, hok, hs, hv, hc,
      evalIdentifierExpression, chk, evalInfixOperator, stOpToRes,
      opResToRes, objAdd, objSubtract, Status.halted, opOk, opErr]

/-- Witness for C10: from `stC10`, x++ yields 5 and stores 6, ++x yields
6. -/
theorem c10_incdec_values_witness :
    stC10.status = .ok ∧
    envGet stC10 0 "x" = some ⟨"x", some (.int 5), false⟩ ∧
    evalExpr 3 stC10 0 (.postIncDec .increment (.ident "x")) =
      (envSet stC10 0 "x" ⟨"x", some (.int (i64add 5 1)), false⟩,
        some (.int 5)) ∧
    evalExpr 3 stC10 0 (.preIncDec .increment (.ident "x")) =
      (envSet stC10 0 "x" ⟨"x", some (.int (i64add 5 1)), false⟩,
        some (.int (i64add 5 1))) := by
  refine ⟨rfl, rfl, ?_, ?_⟩
  · exact (c10_incdec_values ratFM 0 stC10 0 "x"
      ⟨"x", some (.int 5), false⟩ 5 rfl rfl rfl rfl).1
  · exact (c10_incdec_values ratFM 0 stC10 0 "x"
      ⟨"x", some (.int 5), false⟩ 5 rfl rfl rfl rfl).2.2.1

/-!
Claim C1 — increment/decrement of a name defined in an enclosing scope,
compared with compound assignment.  The source stores the inc/dec result
with `Environment.Set` (current scope only), while `+=` stores with
`Environment.Assign` (nearest scope that defines the name), so the claim
fails whenever the nearest definition lies in an outer scope.
-/

/-- Counterexample to C1.  With x bound only in the outer scope, `++x`
evaluated in the inner scope creates a fresh binding x = 6 in the inner
scope and leaves the outer binding at 5 — the claim demands the update to
hit the outer scope and no new inner binding.  `x += 1` from the same
state updates the outer binding and creates no inner binding, so the two
state updates differ. -/
theorem c1_incdec_scope_counterexample :
    (evalExpr 5 stC1 1 (.preIncDec .increment (.ident "x"))).2 =
      some (.int 6) ∧
    (evalExpr 5 stC1 1 (.preIncDec .increment (.ident "x"))).1.envs.get? 1 =
      some ⟨[("x", ⟨"x", some (.int 6), false⟩)], some 0⟩ ∧
    (evalExpr 5 stC1 1 (.preIncDec .increment (.ident "x"))).1.envs.get? 0 =
      some ⟨[("x", ⟨"x", some (.int 5), false⟩)], none⟩ ∧
    (evalExpr 5 stC1 1
        (.compoundAssign .plusEq (.ident "x") (.intLit 1))).1.envs.get? 0 =
      some ⟨[("x", ⟨"x", some (.int 6), false⟩)], none⟩ ∧
    (evalExpr 5 stC1 1
        (.compoundAssign .plusEq (.ident "x") (.intLit 1))).1.envs.get? 1 =
      some ⟨[], some 0⟩ :=
  ⟨rfl, rfl, rfl, rfl, rfl⟩

/-- C1 as amended.  Increment/decrement of a defined, non-const identifier
holding an Int computes the same updated value as the corresponding
compound assignment by one, but stores the updated symbol with `Set` into
the current scope — creating a shadowing binding there when the nearest
definition lies in an enclosing scope — whereas the compound assignment
stores it with `Assign` into the nearest scope that already defines the
name. -/
theorem c1_incdec_uses_current_scope (FM : FloatModel) (fuel : Nat)
    (st : St FM) (env : Nat) (x : String) (s : Symbol FM) (v : Int)
    (hok : st.status = .ok)
    (hs : envGet st env x = some s)
    (hv : s.value = some (.int v))
    (hc : s.isConst = false) :
    evalExpr (fuel + 3) st env (.preIncDec .increment (.ident x)) =
      (envSet st env x ⟨x, some (.int (i64add v 1)), false⟩,
        some (.int (i64add v 1))) ∧
    evalExpr (fuel + 3) st env (.preIncDec .decrement (.ident x)) =
      (envSet st env x ⟨x, some (.int (i64sub v 1)), false⟩,
        some (.int (i64sub v 1))) ∧
    evalExpr (fuel + 3) st env
        (.compoundAssign .plusEq (.ident x) (.intLit 1)) =
      (envAssign st env x ⟨x, some (.int (i64add v 1)), false⟩,
        some (.int (i64add v 1))) ∧
    evalExpr (fuel + 3) st env
        (.compoundAssign .minusEq (.ident x) (.intLit 1)) =
      (envAssign st env x ⟨x, some (.int (i64sub v 1)), false⟩,
        some (.int (i64sub v 1))) := by
  refine ⟨?_, ?_, ?_, ?_⟩ <;>
    simp [evalExpr, evalPrefixUnaryIncDecExpression,
      evalCompoundAssignmentExpression, compBase, hok, hs, hv, hc,
      evalIdentifierExpression, chk, evalInfixOperator, stOpToRes,
      opResToRes, objAdd, objSubtract, Status.halted, opOk, opErr]

/-- Witness for C1's amended theorem at the two-scope state: `++x` in the
inner scope stores via `Set` and `x += 1` via `Assign`. -/
theorem c1_incdec_uses_current_scope_witness :
    stC1.status = .ok ∧
    envGet stC1 1 "x" = some ⟨"x", some (.int 5), false⟩ ∧
    evalExpr 3 stC1 1 (.preIncDec .increment (.ident "x")) =
      (envSet stC1 1 "x" ⟨"x", some (.int (i64add 5 1)), false⟩,
        some (.int (i64add 5 1))) ∧
    evalExpr 3 stC1 1 (.compoundAssign .plusEq (.ident "x") (.intLit 1)) =
      (envAssign stC1 1 "x" ⟨"x", some (.int (i64add 5 1)), false⟩,
        some (.int (i64add 5 1))) := by
  refine ⟨rfl, rfl, ?_, ?_⟩
  · exact (c1_incdec_uses_current_scope ratFM 0 stC1 1 "x"
      ⟨"x", some (.int 5), false⟩ 5 rfl rfl rfl rfl).1
  · exact (c1_incdec_uses_current_scope ratFM 0 stC1 1 "x"
      ⟨"x", some (.int 5), false⟩ 5 rfl rfl rfl rfl).2.2.1

/-!
Claim C7 — const protection: assignment, compound assignment and
increment/decrement through a const name, directly or through an index
chain rooted at it, fail with a VariableError and change nothing.
-/

/-- The root-const walk of `checkIndexTargetConst` reports the const
violation for every index-chain target whose root identifier is bound
const. -/
theorem checkIndexTargetConst_of_const_root {FM : FloatModel} (st : St FM)
    (env : Nat) (x : String) (s : Symbol FM) :
    ∀ t : Expr FM, rootIdent t = some x →
      envGet st env x = some s → s.isConst = true →
      checkIndexTargetConst st env t =
        some ⟨.variableError, "cannot redefine constant \"" ++ x ++ "\"."⟩
  | .ident n, hroot, hs, hc => by
    simp [rootIdent] at hroot
    subst hroot
    simp [checkIndexTargetConst, hs, hc]
  | .indexE t _, hroot, hs, hc => by
    simp [rootIdent] at hroot
    simpa [checkIndexTargetConst] using
      checkIndexTargetConst_of_const_root st env x s t hroot hs hc

/-- C7.  Through a const binding, every write form fails with the
VariableError "cannot redefine constant" and returns no value, and the
state is left untouched except for the recorded error — in particular no
value expression is evaluated, and every binding and heap cell is
unchanged.  The identifier forms and the index-chain forms are covered,
together with the two spec examples at program level. -/
theorem c7_const_protection (FM : FloatModel) (fuel : Nat) (st : St FM)
    (env : Nat) (x : String) (s : Symbol FM)
    (hok : st.status = .ok)
    (hs : envGet st env x = some s)
    (hc : s.isConst = true) :
    (∀ v : Expr FM,
      evalExpr (fuel + 2) st env (.varAssign (.ident x) v) =
        (setErr st .variableError
          ("cannot redefine constant \"" ++ x ++ "\"."), none)) ∧
    (∀ (op : CompOp) (r : Expr FM),
      evalExpr (fuel + 2) st env (.compoundAssign op (.ident x) r) =
        (setErr st .variableError
          ("cannot redefine constant \"" ++ x ++ "\"."), none)) ∧
    (∀ op : IncDecOp,
      evalExpr (fuel + 2) st env (.preIncDec op (.ident x)) =
        (setErr st .variableError
          ("cannot redefine constant \"" ++ x ++ "\"."), none)) ∧
    (∀ op : IncDecOp,
      evalExpr (fuel + 2) st env (.postIncDec op (.ident x)) =
        (setErr st .variableError
          ("cannot redefine constant \"" ++ x ++ "\"."), none)) ∧
    (∀ t i v : Expr FM, rootIdent t = some x →
      evalExpr (fuel + 2) st env (.varAssign (.indexE t i) v) =
        (setErr st .variableError
          ("cannot redefine constant \"" ++ x ++ "\"."), none)) ∧
    (∀ (op : CompOp) (t i r : Expr FM), rootIdent t = some x →
      evalExpr (fuel + 2) st env (.compoundAssign op (.indexE t i) r) =
        (setErr st .variableError
          ("cannot redefine constant \"" ++ x ++ "\"."), none)) ∧
    (∀ (op : IncDecOp) (t i : Expr FM), rootIdent t = some x →
      evalExpr (fuel + 2) st env (.preIncDec op (.indexE t i)) =
        (setErr st .variableError
          ("cannot redefine constant \"" ++ x ++ "\"."), none)) ∧
    (∀ (op : IncDecOp) (t i : Expr FM), rootIdent t = some x →
      evalExpr (fuel + 2) st env (.postIncDec op (.indexE t i)) =
        (setErr st .variableError
          ("cannot redefine constant \"" ++ x ++ "\"."), none)) := by
  have hW := fun (t : Expr FM) (hroot : rootIdent t = some x) =>
    checkIndexTargetConst_of_const_root st env x s t hroot hs hc
  refine ⟨fun v => ?_, fun op r => ?_, fun op => ?_, fun op => ?_,
    fun t i v hroot => ?_, fun op t i r hroot => ?_,
    fun op t i hroot => ?_, fun op t i hroot => ?_⟩
  case _ | _ | _ | _ =>
    simp [evalExpr, evalVarAssignmentExpression,
      evalCompoundAssignmentExpression, evalPrefixUnaryIncDecExpression,
      evalPostfixUnaryIncDecExpression, hok, hs, hc, Status.halted, setErr]
  all_goals
    simp [evalExpr, evalVarAssignmentExpression,
      evalCompoundAssignmentExpression, evalPrefixUnaryIncDecExpression,
      evalPostfixUnaryIncDecExpression, hok, hs, hc, Status.halted,
      setErr, hW _ hroot]

/-- Const-violation runs of the two spec examples: `const x = 1; x = 2;`
and `const l = [1]; l[0] = 2;` both stop with the VariableError and leave
the binding and the list unchanged. -/
theorem c7_const_protection_witness :
    (evalProgram 10 (initSt ratFM) 0
        [.exprStmt (.varInit true "x" (.intLit 1)),
         .exprStmt (.varAssign (.ident "x") (.intLit 2))]).1.status =
      .error ⟨.variableError, "cannot redefine constant \"x\"."⟩ ∧
    (evalProgram 10 (initSt ratFM) 0
        [.exprStmt (.varInit true "x" (.intLit 1)),
         .exprStmt (.varAssign (.ident "x") (.intLit 2))]).1.envs.get? 0 =
      some ⟨[("x", ⟨"x", some (.int 1), true⟩)], none⟩ ∧
    (evalProgram 10 (initSt ratFM) 0
        [.exprStmt (.varInit true "l" (.listLit [.intLit 1])),
         .exprStmt (.varAssign (.indexE (.ident "l") (.intLit 0))
           (.intLit 2))]).1.status =
      .error ⟨.variableError, "cannot redefine constant \"l\"."⟩ ∧
    (evalProgram 10 (initSt ratFM) 0
        [.exprStmt (.varInit true "l" (.listLit [.intLit 1])),
         .exprStmt (.varAssign (.indexE (.ident "l") (.intLit 0))
           (.intLit 2))]).1.heap.get? 0 = some (.listv [.int 1]) ∧
    stC7.status = .ok ∧ envGet stC7 0 "k" = some ⟨"k", some (.int 1), true⟩ ∧
    evalExpr 2 stC7 0 (.varAssign (.ident "k") (.intLit 9)) =
      (setErr stC7 .variableError "cannot redefine constant \"k\".", none) := by
  refine ⟨rfl, rfl, rfl, rfl, rfl, rfl, ?_⟩
  exact (c7_const_protection ratFM 0 stC7 0 "k" ⟨"k", some (.int 1), true⟩
    rfl rfl rfl).1 (.intLit 9)

/-!
Claim C9 — short-circuit evaluation of `&&` and `||` and their Bool-only
operand contract.
-/

/-- A successfully produced value means evaluation was not already torn
down when it started. -/
theorem not_halted_of_eval_some {FM : FloatModel} {fuel : Nat} {st : St FM}
    {env : Nat} {e : Expr FM} {st1 : St FM} {v : Obj FM}
    (h : evalExpr fuel st env e = (st1, some v)) :
    st.status.halted = false := by
  cases fuel with
  | zero => simp [evalExpr] at h
  | succ m =>
    by_cases hh : st.status.halted = true
    · simp [evalExpr, hh] at h
    · simpa using hh

/-- C9.  When the left operand of `&&` evaluates to Bool false (of `||` to
Bool true), the whole expression yields that Bool in the left operand's
state, for every right operand expression — the right operand is not
evaluated.  A non-Bool left operand, or (when the left operand does not
decide) a non-Bool evaluated right operand, is the OperationError of the
operator.  The two spec examples evaluate with no MathError. -/
theorem c9_short_circuit (FM : FloatModel) (fuel : Nat) (st : St FM)
    (env : Nat) (l : Expr FM) :
    (∀ (st1 : St FM) (r : Expr FM),
      evalExpr fuel st env l = (st1, some (.bool false)) →
      st1.status = .ok →
      evalExpr (fuel + 2) st env (.binary .logicalAnd l r) =
        (st1, some (.bool false))) ∧
    (∀ (st1 : St FM) (r : Expr FM),
      evalExpr fuel st env l = (st1, some (.bool true)) →
      st1.status = .ok →
      evalExpr (fuel + 2) st env (.binary .logicalOr l r) =
        (st1, some (.bool true))) ∧
    (∀ (st1 : St FM) (lv : Obj FM) (r : Expr FM),
      evalExpr fuel st env l = (st1, some lv) →
      st1.status = .ok → (∀ b : Bool, lv ≠ .bool b) →
      evalExpr (fuel + 2) st env (.binary .logicalAnd l r) =
        (setErr st1 .operationError (opErrMsg "&&"), none) ∧
      evalExpr (fuel + 2) st env (.binary .logicalOr l r) =
        (setErr st1 .operationError (opErrMsg "||"), none)) ∧
    (∀ (st1 st2 : St FM) (rv : Option (Obj FM)) (r : Expr FM),
      evalExpr fuel st env l = (st1, some (.bool true)) →
      st1.status = .ok →
      evalExpr fuel st1 env r = (st2, rv) →
      st2.status = .ok → (∀ b : Bool, rv ≠ some (.bool b)) →
      evalExpr (fuel + 2) st env (.binary .logicalAnd l r) =
        (setErr st2 .operationError (opErrMsg "&&"), none)) ∧
    (∀ (st1 st2 : St FM) (rv : Option (Obj FM)) (r : Expr FM),
      evalExpr fuel st env l = (st1, some (.bool false)) →
      st1.status = .ok →
      evalExpr fuel st1 env r = (st2, rv) →
      st2.status = .ok → (∀ b : Bool, rv ≠ some (.bool b)) →
      evalExpr (fuel + 2) st env (.binary .logicalOr l r) =
        (setErr st2 .operationError (opErrMsg "||"), none)) ∧
    evalExpr 10 (initSt FM) 0
        (.binary .logicalAnd (.boolLit false)
          (.binary .slash (.intLit 1) (.intLit 0))) =
      (initSt FM, some (.bool false)) ∧
    evalExpr 10 (initSt FM) 0
        (.binary .logicalOr (.boolLit true)
          (.binary .slash (.intLit 1) (.intLit 0))) =
      (initSt FM, some (.bool true)) := by
  refine ⟨?_, ?_, ?_, ?_, ?_, rfl, rfl⟩
  · intro st1 r h h1
    have hh := not_halted_of_eval_some h
    simp [evalExpr, evalInfixExpression, hh, h, h1, chk]
  · intro st1 r h h1
    have hh := not_halted_of_eval_some h
    simp [evalExpr, evalInfixExpression, hh, h, h1, chk]
  · intro st1 lv r h h1 hnb
    have hh := not_halted_of_eval_some h
    cases lv with
    | bool b => exact absurd rfl (hnb b)
    | _ =>
      constructor <;>
        simp [evalExpr, evalInfixExpression, hh, h, h1, chk]
  · intro st1 st2 rv r h h1 h2 h3 hnb
    have hh := not_halted_of_eval_some h
    cases rv with
    | none =>
      simp [evalExpr, evalInfixExpression, hh, h, h1, h2, h3, chk,
        evalInfixOperator, BinOp.lit]
    | some o =>
      cases o with
      | bool b => exact absurd rfl (hnb b)
      | _ =>
        simp [evalExpr, evalInfixExpression, hh, h, h1, h2, h3, chk,
          evalInfixOperator, opResToRes, objAnd, opErr, setErr]
  · intro st1 st2 rv r h h1 h2 h3 hnb
    have hh := not_halted_of_eval_some h
    cases rv with
    | none =>
      simp [evalExpr, evalInfixExpression, hh, h, h1, h2, h3, chk,
        evalInfixOperator, BinOp.lit]
    | some o =>
      cases o with
      | bool b => exact absurd rfl (hnb b)
      | _ =>
        simp [evalExpr, evalInfixExpression, hh, h, h1, h2, h3, chk,
          evalInfixOperator, opResToRes, objOr, opErr, setErr]

/-- Witness for C9: the left literal `false` decides `&&` without touching
the right operand, and a non-Bool left operand raises the OperationError. -/
theorem c9_short_circuit_witness :
    evalExpr 1 (initSt ratFM) 0 (.boolLit false) =
      (initSt ratFM, some (.bool false)) ∧
    (initSt ratFM).status = .ok ∧
    evalExpr 3 (initSt ratFM) 0
        (.binary .logicalAnd (.boolLit false)
          (.binary .slash (.intLit 1) (.intLit 0))) =
      (initSt ratFM, some (.bool false)) ∧
    evalExpr 3 (initSt ratFM) 0
        (.binary .logicalAnd (.intLit 7) (.boolLit true)) =
      (setErr (initSt ratFM) .operationError (opErrMsg "&&"), none) := by
  refine ⟨rfl, rfl, ?_, ?_⟩
  · exact (c9_short_circuit ratFM 1 (initSt ratFM) 0 (.boolLit false)).1
      (initSt ratFM) (.binary .slash (.intLit 1) (.intLit 0)) rfl rfl
  · exact ((c9_short_circuit ratFM 1 (initSt ratFM) 0 (.intLit 7)).2.2.1
      (initSt ratFM) (.int 7) (.boolLit true) rfl rfl
      (fun b => by simp)).1

/-!
Claim C8 — list homogeneity: list literals enforce one element type at
construction and `List.Set` rejects updates that would break it.
-/

/-- Loop invariant of `evalListExpression`: whenever the element loop
completes with a list object, the allocated elements all share the type
fixed by the first element. -/
theorem listLitGo_homogeneous {FM : FloatModel} :
    ∀ (elems : List (Expr FM)) (fuel : Nat) (st : St FM) (env : Nat)
      (ft : Option String) (acc : List (Obj FM)) (st2 : St FM) (r : Nat),
      listLitGo fuel st env elems ft acc = (st2, some (.list r)) →
      (match ft with
        | some t => ∀ o ∈ acc, objType o = t
        | none => acc = []) →
      ∃ es, heapGet st2 r = some (.listv es) ∧ homogeneous es := by
  intro elems
  induction elems with
  | nil =>
    intro fuel st env ft acc st2 r hres hinv
    cases fuel with
    | zero => simp [listLitGo] at hres
    | succ m =>
      simp [listLitGo, heapAlloc] at hres
      obtain ⟨hst2, hr⟩ := hres
      subst hst2
      refine ⟨acc, ?_, ?_⟩
      · simp [heapGet, ← hr, List.getElem?_concat_length]
      · cases ft with
        | none => simp [hinv, homogeneous]
        | some t =>
          intro o ho
          cases acc with
          | nil => simp at ho
          | cons a as' =>
            have ha := hinv a (by simp)
            have hoT := hinv o ho
            simp [ha, hoT]
  | cons e rest ih =>
    intro fuel st env ft acc st2 r hres hinv
    cases fuel with
    | zero => simp [listLitGo] at hres
    | succ m =>
      rw [listLitGo] at hres
      rcases hA : evalExpr m st env e with ⟨stA, vA⟩
      rw [hA, chk] at hres
      by_cases hok : stA.status = .ok
      · rw [if_pos hok] at hres
        dsimp only at hres
        cases vA with
        | none => simp at hres
        | some el =>
          dsimp only at hres
          cases ft with
          | none =>
            exact ih m stA env (some (objType el)) (acc ++ [el]) st2 r
              (by simpa using hres)
              (by
                intro o ho
                rcases List.mem_append.1 ho with h1 | h1
                · rw [hinv] at h1; simp at h1
                · simpa using congrArg objType (List.mem_singleton.1 h1))
          | some t =>
            dsimp only at hres
            by_cases ht : objType el = t
            · rw [if_neg (by simpa using ht)] at hres
              exact ih m stA env (some t) (acc ++ [el]) st2 r hres
                (by
                  intro o ho
                  rcases List.mem_append.1 ho with h1 | h1
                  · exact hinv o h1
                  · rw [List.mem_singleton.1 h1, ht])
            · rw [if_pos (by simpa using ht)] at hres
              simp at hres
      · rw [if_neg hok] at hres
        simp at hres

/-- Setting an element whose type matches the type of the first element
preserves homogeneity. -/
theorem homogeneous_set {FM : FloatModel} {es : List (Obj FM)}
    {v : Obj FM} {n : Nat} (hhom : homogeneous es)
    (ht : es.head?.map objType = some (objType v)) :
    homogeneous (es.set n v) := by
  cases es with
  | nil => intro o ho; simp at ho
  | cons a as' =>
    have hva : objType v = objType a := by simpa using ht.symm
    intro o ho
    rcases List.mem_or_eq_of_mem_set ho with h1 | h1
    · have hoT := hhom o h1
      cases n with
      | zero => simpa [hva] using hoT
      | succ m => simpa using hoT
    · subst h1
      cases n with
      | zero => simp
      | succ m => simp [hva]

/-- C8.  (1) Every list object produced by a list literal is homogeneous.
(2) `List.Set` with a value whose type differs from the element type is
exactly the TypeError "list elements must have consistent types.", and the
heap — hence the list — is unchanged.  (3) An in-bounds `List.Set` that
succeeds preserves homogeneity.  (4) The spec examples: `[1, "a"]` fails
with the TypeError at construction, and `var l = [1, 2]; l[0] = "a";`
fails with the TypeError and leaves the list elements `[1, 2]`. -/
theorem c8_list_homogeneity (FM : FloatModel) :
    (∀ (fuel : Nat) (st : St FM) (env : Nat) (elems : List (Expr FM))
      (st2 : St FM) (r : Nat),
      evalExpr (fuel + 1) st env (.listLit elems) = (st2, some (.list r)) →
      ∃ es, heapGet st2 r = some (.listv es) ∧ homogeneous es) ∧
    (∀ (st : St FM) (ra : Nat) (es : List (Obj FM)) (idx : Int)
      (v : Obj FM),
      listElems st ra = some es →
      ¬((if idx < 0 then (es.length : Int) + idx else idx) < 0 ∨
        (if idx < 0 then (es.length : Int) + idx else idx) ≥
          (es.length : Int)) →
      es.head?.map objType ≠ some (objType v) →
      listSet es idx v =
        .error ⟨.typeError, "list elements must have consistent types."⟩ ∧
      objSet st (.list ra) idx (some v) =
        (st, some (some
          ⟨.typeError, "list elements must have consistent types."⟩))) ∧
    (∀ (es es1 : List (Obj FM)) (idx : Int) (v : Obj FM),
      homogeneous es → listSet es idx v = .ok es1 → homogeneous es1) ∧
    (evalProgram 10 (initSt ratFM) 0
        [.exprStmt (.listLit [.intLit 1, .strLit [97]])]).1.status =
      .error ⟨.typeError, "list elements must have consistent types."⟩ ∧
    (evalProgram 10 (initSt ratFM) 0
        [.exprStmt (.varInit false "l" (.listLit [.intLit 1, .intLit 2])),
         .exprStmt (.varAssign (.indexE (.ident "l") (.intLit 0))
           (.strLit [97]))]).1.status =
      .error ⟨.typeError, "list elements must have consistent types."⟩ ∧
    heapIntList (evalProgram 10 (initSt ratFM) 0
        [.exprStmt (.varInit false "l" (.listLit [.intLit 1, .intLit 2])),
         .exprStmt (.varAssign (.indexE (.ident "l") (.intLit 0))
           (.strLit [97]))]).1 0 = some [some 1, some 2] := by
  refine ⟨?_, ?_, ?_, by decide, by decide, by decide⟩
  · intro fuel st env elems st2 r hres
    by_cases hh : st.status.halted = true
    · simp [evalExpr, hh] at hres
    · rw [evalExpr] at hres
      simp only [Bool.not_eq_true] at hh
      rw [if_neg (by simp [hh])] at hres
      exact listLitGo_homogeneous elems fuel st env none [] st2 r hres rfl
  · intro st ra es idx v hes hb ht
    refine ⟨?_, ?_⟩
    · simp [listSet, hb, ht]
    · simp [objSet, hes, listSet, hb, ht]
  · intro es es1 idx v hhom hset
    by_cases h1 : ((if idx < 0 then (es.length : Int) + idx else idx) < 0 ∨
        (if idx < 0 then (es.length : Int) + idx else idx) ≥
          (es.length : Int))
    · simp [listSet, h1] at hset
    · by_cases h2 : es.head?.map objType ≠ some (objType v)
      · simp [listSet, h1, h2] at hset
      · rw [not_not] at h2
        have hes1 : es1 =
            es.set (if idx < 0 then (es.length : Int) + idx
              else idx).toNat v := by
          have := hset
          simp [listSet, h1, h2] at this
          exact this.symm
        rw [hes1]
        exact homogeneous_set hhom h2

/-- Witness for C8: the length-2 Int list rejects a String element at
index 0 with the TypeError and keeps the heap untouched. -/
theorem c8_list_homogeneity_witness :
    listElems (⟨[], [.listv [.int 1, .int 2]], .root "<main>", .ok, []⟩ :
        St ratFM) 0 = some [.int 1, .int 2] ∧
    evalExpr 4 (initSt ratFM) 0 (.listLit [.intLit 1, .intLit 2]) =
      ((⟨[⟨[], none⟩], [.listv [.int 1, .int 2]], .root "<main>", .ok,
        []⟩ : St ratFM), some (.list 0)) ∧
    (∃ es, heapGet (⟨[⟨[], none⟩], [.listv [.int 1, .int 2]],
        .root "<main>", .ok, []⟩ : St ratFM) 0 = some (.listv es) ∧
      homogeneous es) ∧
    listSet [(.int 1 : Obj ratFM), .int 2] 0 (.str 1) =
      .error ⟨.typeError, "list elements must have consistent types."⟩ := by
  refine ⟨rfl, rfl, ?_, ?_⟩
  · exact (c8_list_homogeneity ratFM).1 3 (initSt ratFM) 0
      [.intLit 1, .intLit 2] _ 0 rfl
  · exact ((c8_list_homogeneity ratFM).2.1
      (⟨[], [.listv [.int 1, .int 2]], .root "<main>", .ok, []⟩ : St ratFM)
      0 [.int 1, .int 2] 0 (.str 1) rfl (by simp) (by simp [objType])).1


/-- C4.  (1)/(2) Calling a Function or a BuiltinFunction whose supplied
(non-placeholder) argument count lies outside the range from P minus D to P
(P declared parameters, D of them with defaults) stops at the arity check
with exactly the ArgumentError text built there, before any argument or
default is evaluated.  (3)-(5) The spec examples over the declaration
func f(a, b=2) return a+b: f(1) = 3, f(1, 3) = 4, and f() raises the
ArgumentError "expected between 1 parameter and 2 parameters, got 0.".
(6) A parameter default is evaluated at call time in the caller's
environment: the parameterless call of h inside g fills a = c from g's
local c = 10, not from the c = 99 of h's defining scope.  (7)/(8) The
default is evaluated exactly once per call: with default c++ on a single
call, the parameter receives 5 and c is left at 6. -/
theorem c4_call_arity_defaults (FM : FloatModel) :
    (∀ (fuel : Nat) (st : St FM) (env : Nat) (f : Expr FM)
      (args : List (Option (Expr FM))) (fname : String)
      (params : List (String × Option (Expr FM))) (body : Stmt FM)
      (fenv : Nat) (st1 : St FM),
      evalExpr fuel st env f = (st1, some (.fn fname params body fenv)) →
      st1.status = .ok →
      ¬(params.length - countDefaults params ≤ countArgs args ∧
        countArgs args ≤ params.length) →
      evalCallExpression (fuel + 1) st env f args =
        (setErr st1 .argumentError
          (arityErrMsg params.length (countDefaults params)
            (countArgs args)), none)) ∧
    (∀ (fuel : Nat) (st : St FM) (env : Nat) (f : Expr FM)
      (args : List (Option (Expr FM))) (bname : String)
      (bparams : List String) (bdefaults : List (Obj FM)) (impl : BKind)
      (st1 : St FM),
      evalExpr fuel st env f =
        (st1, some (.builtin bname bparams bdefaults impl)) →
      st1.status = .ok →
      ¬(bparams.length - bdefaults.length ≤ countArgs args ∧
        countArgs args ≤ bparams.length) →
      evalCallExpression (fuel + 1) st env f args =
        (setErr st1 .argumentError
          (arityErrMsg bparams.length bdefaults.length (countArgs args)),
          none)) ∧
    envIntVal (evalProgram 20 (initSt ratFM) 0
      [.funcDecl "f" [("a", none), ("b", some (.intLit 2))]
         (.ret (.binary .plus (.ident "a") (.ident "b"))),
       .exprStmt (.varInit false "r"
         (.call (.ident "f") [some (.intLit 1)]))]).1 0 "r" = some 3 ∧
    envIntVal (evalProgram 20 (initSt ratFM) 0
      [.funcDecl "f" [("a", none), ("b", some (.intLit 2))]
         (.ret (.binary .plus (.ident "a") (.ident "b"))),
       .exprStmt (.varInit false "r"
         (.call (.ident "f")
           [some (.intLit 1), some (.intLit 3)]))]).1 0 "r" = some 4 ∧
    (evalProgram 20 (initSt ratFM) 0
      [.funcDecl "f" [("a", none), ("b", some (.intLit 2))]
         (.ret (.binary .plus (.ident "a") (.ident "b"))),
       .exprStmt (.call (.ident "f") [])]).1.status =
      .error ⟨.argumentError,
        "expected between 1 parameter and 2 parameters, got 0."⟩ ∧
    envIntVal (evalProgram 30 (initSt ratFM) 0
      [.exprStmt (.varInit false "c" (.intLit 99)),
       .funcDecl "h" [("a", some (.ident "c"))] (.ret (.ident "a")),
       .funcDecl "g" []
         (.exprStmt (.block
           [.exprStmt (.varInit false "c" (.intLit 10)),
            .ret (.call (.ident "h") [])])),
       .exprStmt (.varInit false "res"
         (.call (.ident "g") []))]).1 0 "res" = some 10 ∧
    envIntVal (evalProgram 30 (initSt ratFM) 0
      [.exprStmt (.varInit false "c" (.intLit 5)),
       .funcDecl "f" [("a", some (.postIncDec .increment (.ident "c")))]
         (.ret (.ident "a")),
       .exprStmt (.varInit false "r"
         (.call (.ident "f") []))]).1 0 "r" = some 5 ∧
    envIntVal (evalProgram 30 (initSt ratFM) 0
      [.exprStmt (.varInit false "c" (.intLit 5)),
       .funcDecl "f" [("a", some (.postIncDec .increment (.ident "c")))]
         (.ret (.ident "a")),
       .exprStmt (.varInit false "r"
         (.call (.ident "f") []))]).1 0 "c" = some 6 := by
  refine ⟨?_, ?_, by decide, by decide, by decide, by decide, by decide,
    by decide⟩
  · intro fuel st env f args fname params body fenv st1 hf hok harity
    simp [evalCallExpression, hf, chk, hok, harity]
    intro h1 h2
    exact absurd ⟨Nat.sub_le_iff_le_add.mpr h1, h2⟩ harity
  · intro fuel st env f args bname bparams bdefaults impl st1 hf hok harity
    simp [evalCallExpression, hf, chk, hok, harity]
    intro h1 h2
    exact absurd ⟨Nat.sub_le_iff_le_add.mpr h1, h2⟩ harity

/-- Witness for C4: for func f(a, b=2) the zero-argument call stops with
the arity ArgumentError, and so does the zero-argument call of the len
builtin value. -/
theorem c4_call_arity_defaults_witness :
    evalExpr 1 stC4 0 (.ident "f") =
      (stC4, some (.fn "f" [("a", none), ("b", some (.intLit 2))]
        (.ret (.binary .plus (.ident "a") (.ident "b"))) 0)) ∧
    (¬((2 : Nat) - 1 ≤ 0 ∧ (0 : Nat) ≤ 2)) ∧
    evalCallExpression 2 stC4 0 (.ident "f") [] =
      (setErr stC4 .argumentError (arityErrMsg 2 1 0), none) ∧
    evalCallExpression 2 stC4 0 (.ident "lenb") [] =
      (setErr stC4 .argumentError (arityErrMsg 1 0 0), none) := by
  refine ⟨rfl, by decide, ?_, ?_⟩
  · exact (c4_call_arity_defaults ratFM).1 1 stC4 0 (.ident "f") []
      "f" [("a", none), ("b", some (.intLit 2))]
      (.ret (.binary .plus (.ident "a") (.ident "b"))) 0 stC4
      rfl rfl (by decide)
  · exact (c4_call_arity_defaults ratFM).2.1 1 stC4 0 (.ident "lenb") []
      "len" ["object"] [] .lenB stC4 rfl rfl (by decide)


section FramePres

variable {FM : FloatModel}

theorem framePres_refl {st : St FM} : framePres st st :=
  fun h => ⟨h, rfl⟩

theorem framePres_of_not_ok {st0 st1 : St FM} (h : st1.status ≠ .ok) :
    framePres st0 st1 :=
  fun hk => absurd hk h

theorem framePres_trans {a b c : St FM} (hab : framePres a b)
    (hbc : framePres b c) : framePres a c := by
  intro hc
  rcases hbc hc with ⟨hb, hf⟩
  rcases hab hb with ⟨ha, hf2⟩
  exact ⟨ha, hf.trans hf2⟩

theorem framePres_congr {st0 st st1 : St FM} (hf : st1.frame = st.frame)
    (hs : st1.status = st.status) (h : framePres st0 st) :
    framePres st0 st1 := by
  intro hok
  rw [hs] at hok
  rcases h hok with ⟨h0, he⟩
  exact ⟨h0, hf.trans he⟩

theorem framePres_chk {st0 : St FM} {r : Res FM}
    {k : St FM → Option (Obj FM) → Res FM}
    (hr : framePres st0 r.1)
    (hk : r.1.status = .ok → st0.status = .ok → r.1.frame = st0.frame →
      framePres st0 (k r.1 r.2).1) :
    framePres st0 (chk r k).1 := by
  unfold chk
  split
  · next h =>
    rcases hr h with ⟨h0, hf⟩
    exact hk h h0 hf
  · exact hr

theorem framePres_fst_eq {α : Type} {st0 st1 : St FM} {w : α}
    {p : St FM × α} (heq : p = (st1, w)) (h : framePres st0 p.1) :
    framePres st0 st1 := by
  rw [heq] at h
  exact h

theorem envSet_fst (st : St FM) (i : Nat) (n : String) (s : Symbol FM) :
    (envSet st i n s).frame = st.frame ∧
      (envSet st i n s).status = st.status := by
  unfold envSet
  split <;> exact ⟨rfl, rfl⟩

theorem framePres_envSet {st0 st : St FM} (h : framePres st0 st)
    (i : Nat) (n : String) (s : Symbol FM) :
    framePres st0 (envSet st i n s) :=
  framePres_congr (envSet_fst st i n s).1 (envSet_fst st i n s).2 h

theorem framePres_envAssign {st0 st : St FM} (h : framePres st0 st)
    (i : Nat) (n : String) (s : Symbol FM) :
    framePres st0 (envAssign st i n s) :=
  framePres_congr rfl rfl h

theorem objAdd_fst (st : St FM) (l r : Obj FM) :
    (objAdd st l r).1.frame = st.frame ∧
      (objAdd st l r).1.status = st.status := by
  unfold objAdd
  repeat'
    first
    | exact ⟨rfl, rfl⟩
    | split
    | dsimp only

theorem objSubtract_fst (st : St FM) (l r : Obj FM) :
    (objSubtract st l r).1.frame = st.frame ∧
      (objSubtract st l r).1.status = st.status := by
  unfold objSubtract
  repeat'
    first
    | exact ⟨rfl, rfl⟩
    | split
    | dsimp only

theorem objMultiply_fst (st : St FM) (l r : Obj FM) :
    (objMultiply st l r).1.frame = st.frame ∧
      (objMultiply st l r).1.status = st.status := by
  unfold objMultiply
  repeat'
    first
    | exact ⟨rfl, rfl⟩
    | split
    | dsimp only

theorem objDivide_fst (st : St FM) (l r : Obj FM) :
    (objDivide st l r).1.frame = st.frame ∧
      (objDivide st l r).1.status = st.status := by
  unfold objDivide
  repeat'
    first
    | exact ⟨rfl, rfl⟩
    | split
    | dsimp only

theorem objMod_fst (st : St FM) (l r : Obj FM) :
    (objMod st l r).1.frame = st.frame ∧
      (objMod st l r).1.status = st.status := by
  unfold objMod
  repeat'
    first
    | exact ⟨rfl, rfl⟩
    | split
    | dsimp only

theorem objIndex_fst (st : St FM) (t : Obj FM) (i : Int) :
    (objIndex st t i).1.frame = st.frame ∧
      (objIndex st t i).1.status = st.status := by
  unfold objIndex
  repeat'
    first
    | exact ⟨rfl, rfl⟩
    | split
    | dsimp only

theorem objSet_fst (st : St FM) (t : Obj FM) (i : Int)
    (v : Option (Obj FM)) :
    (objSet st t i v).1.frame = st.frame ∧
      (objSet st t i v).1.status = st.status := by
  unfold objSet
  repeat'
    first
    | exact ⟨rfl, rfl⟩
    | split
    | dsimp only

theorem objSet_eq_pres {st0 st st1 : St FM} {t : Obj FM} {i : Int}
    {v : Option (Obj FM)} {w : Option (Option GErr)}
    (heq : objSet st t i v = (st1, w)) (h : framePres st0 st) :
    framePres st0 st1 := by
  have hf := objSet_fst st t i v
  rw [heq] at hf
  exact framePres_congr hf.1 hf.2 h

theorem bApply_fst (st : St FM) (k : BKind)
    (args : List (Option (Obj FM))) :
    (bApply st k args).1.frame = st.frame ∧
      (bApply st k args).1.status = st.status := by
  unfold bApply
  repeat'
    first
    | exact ⟨rfl, rfl⟩
    | split
    | dsimp only

theorem bApply_eq_fst {st st1 : St FM} {k : BKind}
    {args : List (Option (Obj FM))} {w : OpRes FM}
    (heq : bApply st k args = (st1, w)) :
    st1.frame = st.frame ∧ st1.status = st.status := by
  have hf := bApply_fst st k args
  rw [heq] at hf
  exact hf

theorem framePres_opResToRes {st0 st : St FM} (h : framePres st0 st)
    (x : OpRes FM) : framePres st0 (opResToRes st x).1 := by
  match x with
  | none => exact framePres_of_not_ok (by simp [opResToRes, crash])
  | some (.error e) => exact framePres_of_not_ok (by simp [opResToRes])
  | some (.ok v) => exact h

theorem framePres_stOpToRes {st0 st : St FM} {p : St FM × OpRes FM}
    (hf : p.1.frame = st.frame) (hs : p.1.status = st.status)
    (h : framePres st0 st) : framePres st0 (stOpToRes p).1 := by
  rcases p with ⟨st1, w⟩
  match w with
  | none =>
    exact framePres_of_not_ok (by simp [stOpToRes, opResToRes, crash])
  | some (.error e) =>
    exact framePres_of_not_ok (by simp [stOpToRes, opResToRes])
  | some (.ok v) => exact framePres_congr hf hs h

theorem framePres_evalIdentifierExpression {st0 st : St FM}
    (h : framePres st0 st) (env : Nat) (n : String) :
    framePres st0 (evalIdentifierExpression st env n).1 := by
  unfold evalIdentifierExpression
  split
  · exact framePres_of_not_ok (by simp [setErr])
  · exact h

theorem framePres_evalFunctionDeclarationStatement {st : St FM}
    (env : Nat) (n : String) (ps : List (String × Option (Expr FM)))
    (b : Stmt FM) :
    framePres st (evalFunctionDeclarationStatement st env n ps b).1 := by
  unfold evalFunctionDeclarationStatement
  split
  · exact framePres_of_not_ok (by simp [setErr])
  · exact framePres_envSet framePres_refl env n _

theorem framePres_evalPrefixOperator {st0 st : St FM}
    (h : framePres st0 st) (op : PreOp) (v : Option (Obj FM)) :
    framePres st0 (evalPrefixOperator st op v).1 := by
  unfold evalPrefixOperator
  split
  · exact framePres_of_not_ok (by simp [crash])
  · split <;> exact framePres_opResToRes h _

theorem framePres_evalInfixOperator {st0 st : St FM}
    (h : framePres st0 st) (gas : Nat) (op : BinOp)
    (l r : Option (Obj FM)) :
    framePres st0 (evalInfixOperator gas st op l r).1 := by
  unfold evalInfixOperator
  match l with
  | none => exact framePres_of_not_ok (by simp [crash])
  | some lv =>
    match r with
    | some rv =>
      cases op <;>
        first
        | exact framePres_stOpToRes (objAdd_fst st lv rv).1
            (objAdd_fst st lv rv).2 h
        | exact framePres_stOpToRes (objSubtract_fst st lv rv).1
            (objSubtract_fst st lv rv).2 h
        | exact framePres_stOpToRes (objMultiply_fst st lv rv).1
            (objMultiply_fst st lv rv).2 h
        | exact framePres_stOpToRes (objDivide_fst st lv rv).1
            (objDivide_fst st lv rv).2 h
        | exact framePres_stOpToRes (objMod_fst st lv rv).1
            (objMod_fst st lv rv).2 h
        | exact framePres_opResToRes h _
    | none =>
      match op with
      | .equals => exact h
      | .notEquals => exact h
      | .plus => exact framePres_of_not_ok (by simp [setErr])
      | .minus => exact framePres_of_not_ok (by simp [setErr])
      | .asterisk => exact framePres_of_not_ok (by simp [setErr])
      | .slash => exact framePres_of_not_ok (by simp [setErr])
      | .percent => exact framePres_of_not_ok (by simp [setErr])
      | .lt => exact framePres_of_not_ok (by simp [setErr])
      | .gt => exact framePres_of_not_ok (by simp [setErr])
      | .lte => exact framePres_of_not_ok (by simp [setErr])
      | .gte => exact framePres_of_not_ok (by simp [setErr])
      | .bitAnd => exact framePres_of_not_ok (by simp [setErr])
      | .bitOr => exact framePres_of_not_ok (by simp [setErr])
      | .bitXor => exact framePres_of_not_ok (by simp [setErr])
      | .leftShift => exact framePres_of_not_ok (by simp [setErr])
      | .rightShift => exact framePres_of_not_ok (by simp [setErr])
      | .logicalAnd => exact framePres_of_not_ok (by simp [setErr])
      | .logicalOr => exact framePres_of_not_ok (by simp [setErr])

theorem bindParams_pres :
    ∀ (ps : List (String × Option (Expr FM)))
      (vals : List (Option (Obj FM))) (st : St FM) (fe : Nat)
      (st1 : St FM),
      bindParams st fe ps vals = some st1 →
      st1.frame = st.frame ∧ st1.status = st.status := by
  intro ps
  induction ps with
  | nil =>
    intro vals st fe st1 h
    simp only [bindParams] at h
    injection h with h
    subst h
    exact ⟨rfl, rfl⟩
  | cons p ps ih =>
    intro vals st fe st1 h
    obtain ⟨n, d⟩ := p
    cases vals with
    | nil => simp [bindParams] at h
    | cons a vs =>
      simp only [bindParams] at h
      have h2 := ih vs (envSet st fe n ⟨n, a, false⟩) fe st1 h
      exact ⟨h2.1.trans (envSet_fst st fe n ⟨n, a, false⟩).1,
        h2.2.trans (envSet_fst st fe n ⟨n, a, false⟩).2⟩

/-- Every evaluator function preserves the current frame whenever it
completes without an error, panic or fuel exhaustion. -/
theorem framePres_eval (FM : FloatModel) (fuel : Nat) :
    (∀ (st : St FM) (env : Nat) (s : Stmt FM),
      framePres st (evalStmt fuel st env s).1) ∧
    (∀ (st : St FM) (env : Nat) (e : Expr FM),
      framePres st (evalExpr fuel st env e).1) ∧
    (∀ (st : St FM) (env : Nat) (stmts : List (Stmt FM)),
      framePres st (evalProgram fuel st env stmts).1) ∧
    (∀ (st : St FM) (env : Nat) (i : Stmt FM) (c : Expr FM)
      (u b : Stmt FM),
      framePres st (evalForStatement fuel st env i c u b).1) ∧
    (∀ (st : St FM) (env : Nat) (ct : Bool) (c : Expr FM) (u b : Stmt FM),
      framePres st (forLoop fuel st env ct c u b).1) ∧
    (∀ (st : St FM) (env : Nat) (v : Expr FM),
      framePres st (evalReturnStatement fuel st env v).1) ∧
    (∀ (st : St FM) (env : Nat) (e : Expr FM),
      framePres st (evalExpressionStatement fuel st env e).1) ∧
    (∀ (st : St FM) (env : Nat) (elems : List (Expr FM))
      (ft : Option String) (acc : List (Obj FM)),
      framePres st (listLitGo fuel st env elems ft acc).1) ∧
    (∀ (st : St FM) (env : Nat) (c : Bool) (n : String) (v : Expr FM),
      framePres st (evalVarInitializationExpression fuel st env c n v).1) ∧
    (∀ (st : St FM) (env : Nat) (t v : Expr FM),
      framePres st (evalVarAssignmentExpression fuel st env t v).1) ∧
    (∀ (st : St FM) (env : Nat) (op : CompOp) (t r : Expr FM),
      framePres st
        (evalCompoundAssignmentExpression fuel st env op t r).1) ∧
    (∀ (st : St FM) (env : Nat) (op : PreOp) (v : Expr FM),
      framePres st (evalPrefixExpression fuel st env op v).1) ∧
    (∀ (st : St FM) (env : Nat) (op : BinOp) (l r : Expr FM),
      framePres st (evalInfixExpression fuel st env op l r).1) ∧
    (∀ (st : St FM) (env : Nat) (op : IncDecOp) (r : Expr FM),
      framePres st
        (evalPrefixUnaryIncDecExpression fuel st env op r).1) ∧
    (∀ (st : St FM) (env : Nat) (op : IncDecOp) (l : Expr FM),
      framePres st
        (evalPostfixUnaryIncDecExpression fuel st env op l).1) ∧
    (∀ (st : St FM) (env : Nat) (s : Stmt FM),
      framePres st (evalWithReturnValue fuel st env s).1) ∧
    (∀ (st : St FM) (env : Nat) (stmts : List (Stmt FM))
      (ret : Option (Obj FM)),
      framePres st (blockGo fuel st env stmts ret).1) ∧
    (∀ (st : St FM) (env : Nat) (c : Expr FM) (cs : Stmt FM)
      (alt : Option (Stmt FM)),
      framePres st (evalIfExpression fuel st env c cs alt).1) ∧
    (∀ (st : St FM) (env : Nat)
      (params : List (String × Option (Expr FM)))
      (args : List (Option (Expr FM))) (acc : List (Option (Obj FM))),
      framePres st (fillArgs fuel st env params args acc).1) ∧
    (∀ (st : St FM) (env : Nat)
      (params : List (String × Option (Expr FM)))
      (acc : List (Option (Obj FM))),
      framePres st (fillRest fuel st env params acc).1) ∧
    (∀ (st : St FM) (env : Nat) (args : List (Option (Expr FM)))
      (acc : List (Option (Obj FM))),
      framePres st (fillArgsB fuel st env args acc).1) ∧
    (∀ (st : St FM) (env : Nat) (f : Expr FM)
      (args : List (Option (Expr FM))),
      framePres st (evalCallExpression fuel st env f args).1) ∧
    (∀ (st : St FM) (env : Nat) (t i : Expr FM),
      framePres st (evalIndexExpression fuel st env t i).1) := by
  induction fuel with
  | zero =>
    refine ⟨?_, ?_, ?_, ?_, ?_, ?_, ?_, ?_, ?_, ?_, ?_, ?_, ?_, ?_, ?_,
      ?_, ?_, ?_, ?_, ?_, ?_, ?_, ?_⟩ <;>
      · intros
        exact framePres_of_not_ok (by
          simp [evalStmt, evalExpr, evalProgram, evalForStatement, forLoop,
            evalReturnStatement, evalExpressionStatement, listLitGo,
            evalVarInitializationExpression, evalVarAssignmentExpression,
            evalCompoundAssignmentExpression, evalPrefixExpression,
            evalInfixExpression, evalPrefixUnaryIncDecExpression,
            evalPostfixUnaryIncDecExpression, evalWithReturnValue, blockGo,
            evalIfExpression, fillArgs, fillRest, fillArgsB,
            evalCallExpression, evalIndexExpression, fuelStop])
  | succ fuel ih =>
    obtain ⟨ihStmt, ihExpr, ihProg, ihFor, ihForLoop, ihRet, ihExprStmt,
      ihListLit, ihVarInit, ihVarAssign, ihCompound, ihPrefix, ihInfix,
      ihPreInc, ihPostInc, ihWRV, ihBlockGo, ihIf, ihFillArgs, ihFillRest,
      ihFillArgsB, ihCall, ihIndex⟩ := ih
    refine ⟨?_, ?_, ?_, ?_, ?_, ?_, ?_, ?_, ?_, ?_, ?_, ?_, ?_, ?_, ?_,
      ?_, ?_, ?_, ?_, ?_, ?_, ?_, ?_⟩
    · -- evalStmt
      intro st env s
      simp only [evalStmt]
      split
      · exact framePres_refl
      · cases s with
        | forStmt i c u b => exact ihFor st env i c u b
        | funcDecl n ps b =>
          exact framePres_evalFunctionDeclarationStatement env n ps b
        | ret v => exact ihRet st env v
        | exprStmt e => exact ihExprStmt st env e
    · -- evalExpr
      intro st env e
      simp only [evalExpr]
      split
      · exact framePres_refl
      · cases e with
        | intLit v => exact framePres_refl
        | floatLit v => exact framePres_refl
        | boolLit b => exact framePres_refl
        | nullLit => exact framePres_refl
        | strLit bs => exact fun h => ⟨h, rfl⟩
        | listLit es => exact ihListLit st env es none []
        | ident n =>
          exact framePres_evalIdentifierExpression framePres_refl env n
        | grouped g => exact ihExpr st env g
        | unary op v => exact ihPrefix st env op v
        | binary op l r => exact ihInfix st env op l r
        | varInit c n v => exact ihVarInit st env c n v
        | varAssign t v => exact ihVarAssign st env t v
        | compoundAssign op t r => exact ihCompound st env op t r
        | preIncDec op r => exact ihPreInc st env op r
        | postIncDec op l => exact ihPostInc st env op l
        | block stmts =>
          exact framePres_trans (fun h => ⟨h, rfl⟩)
            (ihBlockGo _ _ stmts none)
        | ifE c cs alt => exact ihIf st env c cs alt
        | call f args => exact ihCall st env f args
        | indexE t i => exact ihIndex st env t i
    · -- evalProgram
      intro st env stmts
      simp only [evalProgram]
      cases stmts with
      | nil => exact framePres_refl
      | cons s rest =>
        refine framePres_chk (ihStmt st env s) ?_
        intro h h0 hf
        exact framePres_trans (fun _ => ⟨h0, hf⟩) (ihProg _ env rest)
    · -- evalForStatement
      intro st env i c u b
      simp only [evalForStatement]
      try dsimp only
      refine framePres_chk
        (framePres_trans (fun h => ⟨h, rfl⟩) (ihStmt _ _ i)) ?_
      intro h1 h01 hf1
      refine framePres_chk
        (framePres_trans (fun _ => ⟨h01, hf1⟩) (ihExpr _ _ c)) ?_
      intro h2 h02 hf2
      split
      · exact framePres_trans (fun _ => ⟨h02, hf2⟩)
          (ihForLoop _ _ _ c u b)
      · exact framePres_of_not_ok (by simp [setErr])
    · -- forLoop
      intro st env ct c u b
      simp only [forLoop]
      split
      · exact framePres_refl
      · refine framePres_chk (ihStmt st env b) ?_
        intro h1 h01 hf1
        split
        · exact fun _ => ⟨h01, hf1⟩
        · refine framePres_chk
            (framePres_trans (fun _ => ⟨h01, hf1⟩) (ihStmt _ env u)) ?_
          intro h2 h02 hf2
          refine framePres_chk
            (framePres_trans (fun _ => ⟨h02, hf2⟩) (ihExpr _ env c)) ?_
          intro h3 h03 hf3
          split
          · exact framePres_trans (fun _ => ⟨h03, hf3⟩)
              (ihForLoop _ env _ c u b)
          · exact framePres_of_not_ok (by simp [setErr])
    · -- evalReturnStatement
      intro st env v
      simp only [evalReturnStatement]
      split
      · exact framePres_of_not_ok (by simp [setErr])
      · refine framePres_chk (ihExpr st env v) ?_
        intro h h0 hf
        exact fun _ => ⟨h0, hf⟩
    · -- evalExpressionStatement
      intro st env e
      simp only [evalExpressionStatement]
      refine framePres_chk (ihExpr st env e) ?_
      intro h h0 hf
      split <;> exact fun _ => ⟨h0, hf⟩
    · -- listLitGo
      intro st env elems ft acc
      simp only [listLitGo]
      cases elems with
      | nil => exact fun h => ⟨h, rfl⟩
      | cons e rest =>
        refine framePres_chk (ihExpr st env e) ?_
        intro h h0 hf
        split
        · exact framePres_of_not_ok (by simp [crash])
        · split
          · exact framePres_trans (fun _ => ⟨h0, hf⟩)
              (ihListLit _ env rest _ _)
          · split
            · exact framePres_of_not_ok (by simp [setErr])
            · exact framePres_trans (fun _ => ⟨h0, hf⟩)
                (ihListLit _ env rest _ _)
    · -- evalVarInitializationExpression
      intro st env c n v
      simp only [evalVarInitializationExpression]
      split
      · exact framePres_of_not_ok (by simp [setErr])
      · refine framePres_chk (ihExpr st env v) ?_
        intro h h0 hf
        exact framePres_envSet (fun _ => ⟨h0, hf⟩) env n _
    · -- evalVarAssignmentExpression
      intro st env t v
      simp only [evalVarAssignmentExpression]
      split
      · -- ident
        split
        · exact framePres_of_not_ok (by simp [setErr])
        · split
          · exact framePres_of_not_ok (by simp [setErr])
          · refine framePres_chk (ihExpr st env v) ?_
            intro h h0 hf
            exact framePres_envAssign (fun _ => ⟨h0, hf⟩) env _ _
      · -- indexE
        split
        · exact framePres_of_not_ok (by simp)
        · refine framePres_chk (ihExpr st env _) ?_
          intro h1 h01 hf1
          refine framePres_chk
            (framePres_trans (fun _ => ⟨h01, hf1⟩) (ihExpr _ env _)) ?_
          intro h2 h02 hf2
          split
          · split
            · split
              · refine framePres_chk
                  (framePres_trans (fun _ => ⟨h02, hf2⟩)
                    (ihExpr _ env _)) ?_
                intro h3 h03 hf3
                split
                · next st4 heq =>
                  exact objSet_eq_pres heq (fun _ => ⟨h03, hf3⟩)
                · exact framePres_of_not_ok (by simp)
                · exact framePres_of_not_ok (by simp [crash])
              · exact framePres_of_not_ok (by simp [setErr])
            · exact framePres_of_not_ok (by simp [setErr])
          · exact framePres_of_not_ok (by simp [setErr])
      · exact framePres_of_not_ok (by simp [setErr])
    · -- evalCompoundAssignmentExpression
      intro st env op t r
      simp only [evalCompoundAssignmentExpression]
      split
      · -- ident
        split
        · exact framePres_of_not_ok (by simp [setErr])
        · split
          · exact framePres_of_not_ok (by simp [setErr])
          · refine framePres_chk (ihExpr st env r) ?_
            intro h1 h01 hf1
            refine framePres_chk
              (framePres_evalInfixOperator (fun _ => ⟨h01, hf1⟩)
                fuel _ _ _) ?_
            intro h2 h02 hf2
            exact framePres_envAssign (fun _ => ⟨h02, hf2⟩) env _ _
      · -- indexE
        split
        · exact framePres_of_not_ok (by simp)
        · refine framePres_chk (ihExpr st env _) ?_
          intro h1 h01 hf1
          refine framePres_chk
            (framePres_trans (fun _ => ⟨h01, hf1⟩) (ihExpr _ env _)) ?_
          intro h2 h02 hf2
          split
          · split
            · split
              · refine framePres_chk
                  (framePres_trans (fun _ => ⟨h02, hf2⟩)
                    (ihExpr _ env _)) ?_
                intro h3 h03 hf3
                refine framePres_chk
                  (framePres_trans (fun _ => ⟨h03, hf3⟩)
                    (ihExpr _ env _)) ?_
                intro h4 h04 hf4
                refine framePres_chk
                  (framePres_evalInfixOperator (fun _ => ⟨h04, hf4⟩)
                    fuel _ _ _) ?_
                intro h5 h05 hf5
                split
                · next st6 heq =>
                  exact objSet_eq_pres heq (fun _ => ⟨h05, hf5⟩)
                · exact framePres_of_not_ok (by simp)
                · exact framePres_of_not_ok (by simp [crash])
              · exact framePres_of_not_ok (by simp [setErr])
            · exact framePres_of_not_ok (by simp [setErr])
          · exact framePres_of_not_ok (by simp [setErr])
      · exact framePres_of_not_ok (by simp [setErr])
    · -- evalPrefixExpression
      intro st env op v
      simp only [evalPrefixExpression]
      refine framePres_chk (ihExpr st env v) ?_
      intro h h0 hf
      exact framePres_evalPrefixOperator (fun _ => ⟨h0, hf⟩) op _
    · -- evalInfixExpression
      intro st env op l r
      simp only [evalInfixExpression]
      refine framePres_chk (ihExpr st env l) ?_
      intro h1 h01 hf1
      try dsimp only
      split
      · split
        · split
          · exact fun _ => ⟨h01, hf1⟩
          · refine framePres_chk
              (framePres_trans (fun _ => ⟨h01, hf1⟩) (ihExpr _ env r)) ?_
            intro h2 h02 hf2
            exact framePres_evalInfixOperator (fun _ => ⟨h02, hf2⟩)
              fuel op _ _
        · exact framePres_of_not_ok (by simp [setErr])
      · split
        · split
          · split
            · exact fun _ => ⟨h01, hf1⟩
            · refine framePres_chk
                (framePres_trans (fun _ => ⟨h01, hf1⟩)
                  (ihExpr _ env r)) ?_
              intro h2 h02 hf2
              exact framePres_evalInfixOperator (fun _ => ⟨h02, hf2⟩)
                fuel op _ _
          · exact framePres_of_not_ok (by simp [setErr])
        · refine framePres_chk
            (framePres_trans (fun _ => ⟨h01, hf1⟩) (ihExpr _ env r)) ?_
          intro h2 h02 hf2
          exact framePres_evalInfixOperator (fun _ => ⟨h02, hf2⟩)
            fuel op _ _
    · -- evalPrefixUnaryIncDecExpression
      intro st env op r
      simp only [evalPrefixUnaryIncDecExpression]
      split
      · -- ident
        split
        · exact framePres_of_not_ok (by simp [setErr])
        · split
          · exact framePres_of_not_ok (by simp [setErr])
          · refine framePres_chk (ihExpr st env _) ?_
            intro h1 h01 hf1
            try dsimp only
            refine framePres_chk
              (framePres_evalInfixOperator (fun _ => ⟨h01, hf1⟩)
                fuel _ _ _) ?_
            intro h2 h02 hf2
            exact framePres_envSet (fun _ => ⟨h02, hf2⟩) env _ _
      · -- indexE
        split
        · exact framePres_of_not_ok (by simp)
        · refine framePres_chk (ihExpr st env _) ?_
          intro h1 h01 hf1
          refine framePres_chk
            (framePres_trans (fun _ => ⟨h01, hf1⟩) (ihExpr _ env _)) ?_
          intro h2 h02 hf2
          split
          · split
            · split
              · refine framePres_chk
                  (framePres_trans (fun _ => ⟨h02, hf2⟩)
                    (ihExpr _ env _)) ?_
                intro h3 h03 hf3
                try dsimp only
                refine framePres_chk
                  (framePres_evalInfixOperator (fun _ => ⟨h03, hf3⟩)
                    fuel _ _ _) ?_
                intro h4 h04 hf4
                split
                · next st5 heq =>
                  exact objSet_eq_pres heq (fun _ => ⟨h04, hf4⟩)
                · exact framePres_of_not_ok (by simp)
                · exact framePres_of_not_ok (by simp [crash])
              · exact framePres_of_not_ok (by simp [setErr])
            · exact framePres_of_not_ok (by simp [setErr])
          · exact framePres_of_not_ok (by simp [setErr])
      · exact framePres_of_not_ok (by simp [setErr])
    · -- evalPostfixUnaryIncDecExpression
      intro st env op l
      simp only [evalPostfixUnaryIncDecExpression]
      split
      · -- ident
        split
        · exact framePres_of_not_ok (by simp [setErr])
        · split
          · exact framePres_of_not_ok (by simp [setErr])
          · refine framePres_chk (ihExpr st env _) ?_
            intro h1 h01 hf1
            try dsimp only
            refine framePres_chk
              (framePres_evalInfixOperator (fun _ => ⟨h01, hf1⟩)
                fuel _ _ _) ?_
            intro h2 h02 hf2
            exact framePres_envSet (fun _ => ⟨h02, hf2⟩) env _ _
      · -- indexE
        split
        · exact framePres_of_not_ok (by simp)
        · refine framePres_chk (ihExpr st env _) ?_
          intro h1 h01 hf1
          refine framePres_chk
            (framePres_trans (fun _ => ⟨h01, hf1⟩) (ihExpr _ env _)) ?_
          intro h2 h02 hf2
          split
          · split
            · split
              · refine framePres_chk
                  (framePres_trans (fun _ => ⟨h02, hf2⟩)
                    (ihIndex _ env _ _)) ?_
                intro h3 h03 hf3
                try dsimp only
                refine framePres_chk
                  (framePres_evalInfixOperator (fun _ => ⟨h03, hf3⟩)
                    fuel _ _ _) ?_
                intro h4 h04 hf4
                split
                · next st5 heq =>
                  exact objSet_eq_pres heq (fun _ => ⟨h04, hf4⟩)
                · exact framePres_of_not_ok (by simp)
                · exact framePres_of_not_ok (by simp [crash])
              · exact framePres_of_not_ok (by simp [setErr])
            · exact framePres_of_not_ok (by simp [setErr])
          · exact framePres_of_not_ok (by simp [setErr])
      · exact framePres_of_not_ok (by simp [setErr])
    · -- evalWithReturnValue
      intro st env s
      simp only [evalWithReturnValue]
      split
      · exact framePres_refl
      · split
        · refine framePres_chk (ihExpr st env _) ?_
          intro h h0 hf
          exact fun _ => ⟨h0, hf⟩
        · refine framePres_chk (ihExpr st env _) ?_
          intro h h0 hf
          exact fun _ => ⟨h0, hf⟩
        · refine framePres_chk (ihStmt st env _) ?_
          intro h h0 hf
          split <;> exact fun _ => ⟨h0, hf⟩
    · -- blockGo
      intro st env stmts ret
      cases stmts with
      | nil =>
        simp only [blockGo]
        exact framePres_refl
      | cons s rest =>
        simp only [blockGo]
        split
        · exact ihWRV st env s
        · exact framePres_trans (ihWRV st env s) (ihBlockGo _ env rest _)
    · -- evalIfExpression
      intro st env c cs alt
      simp only [evalIfExpression]
      refine framePres_chk (ihExpr st env c) ?_
      intro h1 h01 hf1
      split
      · try dsimp only
        split
        · exact framePres_trans (fun _ => ⟨h01, hf1⟩)
            (framePres_trans (fun h => ⟨h, rfl⟩) (ihWRV _ _ cs))
        · split
          · exact framePres_trans (fun _ => ⟨h01, hf1⟩)
              (framePres_trans (fun h => ⟨h, rfl⟩) (ihWRV _ _ _))
          · exact fun _ => ⟨h01, hf1⟩
      · exact framePres_of_not_ok (by simp [setErr])
    · -- fillArgs
      intro st env params args acc
      cases args with
      | nil =>
        simp only [fillArgs]
        exact framePres_refl
      | cons a rest =>
        cases a with
        | none =>
          simp only [fillArgs]
          split
          · try dsimp only
            split
            · exact framePres_trans (ihExpr st env _)
                (ihFillArgs _ env params rest _)
            · exact ihExpr st env _
          · exact framePres_of_not_ok (by simp [crash])
          · exact framePres_of_not_ok (by simp [crash])
        | some a =>
          simp only [fillArgs]
          try dsimp only
          split
          · exact framePres_trans (ihExpr st env a)
              (ihFillArgs _ env params rest _)
          · exact ihExpr st env a
    · -- fillRest
      intro st env params acc
      simp only [fillRest]
      split
      · exact framePres_refl
      · try dsimp only
        split
        · exact framePres_trans (ihExpr st env _)
            (ihFillRest _ env params _)
        · exact ihExpr st env _
      · exact framePres_of_not_ok (by simp [crash])
    · -- fillArgsB
      intro st env args acc
      cases args with
      | nil =>
        simp only [fillArgsB]
        exact framePres_refl
      | cons a rest =>
        cases a with
        | none =>
          exact framePres_of_not_ok (by simp [fillArgsB, crash])
        | some a =>
          simp only [fillArgsB]
          try dsimp only
          split
          · exact framePres_trans (ihExpr st env a)
              (ihFillArgsB _ env rest _)
          · exact ihExpr st env a
    · -- evalCallExpression
      intro st env f args
      simp only [evalCallExpression]
      refine framePres_chk (ihExpr st env f) ?_
      intro h1 h01 hf1
      split
      · -- Function callee
        try dsimp only
        split
        · exact framePres_of_not_ok (by simp [setErr])
        · split
          · next st2 heq =>
            exact framePres_fst_eq heq
              (framePres_trans (fun _ => ⟨h01, hf1⟩)
                (ihFillArgs _ env _ args []))
          · next st2 argument1 heq =>
            have hSt2 : framePres st st2 :=
              framePres_fst_eq heq
                (framePres_trans (fun _ => ⟨h01, hf1⟩)
                  (ihFillArgs _ env _ args []))
            split
            · next st3 heq2 =>
              exact framePres_fst_eq heq2
                (framePres_trans hSt2 (ihFillRest st2 env _ argument1))
            · next st3 argument heq2 =>
              have hSt3 : framePres st st3 :=
                framePres_fst_eq heq2
                  (framePres_trans hSt2 (ihFillRest st2 env _ argument1))
              try dsimp only
              split
              · exact framePres_of_not_ok (by simp [crash])
              · next st6 heq3 =>
                have hbp := bindParams_pres _ _ _ _ _ heq3
                split
                · next hrok =>
                  rcases (ihWRV st6 _ _) hrok with ⟨h6ok, h6f⟩
                  have h3ok : st3.status = .ok := by
                    have h5ok := hbp.2 ▸ h6ok
                    exact h5ok
                  rcases hSt3 h3ok with ⟨hok0, hfr3⟩
                  have hframe : (evalWithReturnValue fuel st6
                      (envAlloc st3 _).2 _).1.frame =
                      Frame.child _ st3.frame := h6f.trans hbp.1
                  split <;>
                    exact fun _ => ⟨hok0, by rw [hframe]; exact hfr3⟩
                · next hrnot =>
                  exact framePres_of_not_ok hrnot
      · -- Builtin callee
        try dsimp only
        split
        · exact framePres_of_not_ok (by simp [setErr])
        · split
          · next st2 heq =>
            exact framePres_fst_eq heq
              (framePres_trans (fun _ => ⟨h01, hf1⟩)
                (ihFillArgsB _ env args []))
          · next st2 argument heq =>
            have hSt2 : framePres st st2 :=
              framePres_fst_eq heq
                (framePres_trans (fun _ => ⟨h01, hf1⟩)
                  (ihFillArgsB _ env args []))
            split
            · exact framePres_of_not_ok (by simp [crash])
            · try dsimp only
              split
              · exact framePres_of_not_ok (by simp [crash])
              · exact framePres_of_not_ok (by simp)
              · next stB v heq2 =>
                have hb := bApply_eq_fst heq2
                intro hok7
                have h2ok : st2.status = .ok := hb.2 ▸ hok7
                rcases hSt2 h2ok with ⟨hok0, hfr2⟩
                have hbf : stB.frame = Frame.child _ st2.frame := hb.1
                exact ⟨hok0, by rw [hbf]; exact hfr2⟩
      · exact framePres_of_not_ok (by simp [setErr])
    · -- evalIndexExpression
      intro st env t i
      simp only [evalIndexExpression]
      refine framePres_chk (ihExpr st env t) ?_
      intro h1 h01 hf1
      refine framePres_chk
        (framePres_trans (fun _ => ⟨h01, hf1⟩) (ihExpr _ env i)) ?_
      intro h2 h02 hf2
      split
      · split
        · exact framePres_stOpToRes (objIndex_fst _ _ _).1
            (objIndex_fst _ _ _).2 (fun _ => ⟨h02, hf2⟩)
        · exact framePres_of_not_ok (by simp [crash])
      · exact framePres_of_not_ok (by simp [setErr])

/-- C2 counterexample: the claim's "the current Frame is restored to the
caller's frame ... whether the body completes normally or evaluation stops
because the error state was set" fails in the error case.  Running
func g() { 1/0; } g(); from the initial state (whose frame is the root
frame, the caller's frame at the call site) ends with the MathError
recorded and the current frame still the frame pushed for g — the parent
is not restored. -/
theorem c2_frame_error_counterexample :
    (evalProgram 10 (initSt ratFM) 0
      [.funcDecl "g" []
         (.exprStmt (.binary .slash (.intLit 1) (.intLit 0))),
       .exprStmt (.call (.ident "g") [])]).1.status =
      .error ⟨.mathError, "division by zero."⟩ ∧
    (evalProgram 10 (initSt ratFM) 0
      [.funcDecl "g" []
         (.exprStmt (.binary .slash (.intLit 1) (.intLit 0))),
       .exprStmt (.call (.ident "g") [])]).1.frame =
      .child "<function \"g\">" (.root "<main>") ∧
    (initSt ratFM).frame = .root "<main>" :=
  ⟨by decide, by decide, rfl⟩

/-- C2 (amended).  A call pushes a frame labelled with the callee on
entry.  On normal completion the parent — the caller's frame — is
restored: every evaluation (in particular every call expression) that
finishes with no error recorded leaves the current frame exactly as it
found it.  When evaluation stops because the error state was set, the
pushed frame is retained (the source keeps it for traceback) instead of
being restored.  Concretely: func g() return 1; var r = g(); completes
with status ok, frame back at the root, and r = 1; with the body 1/0 the
run ends with the frame still the one pushed for g. -/
theorem c2_call_frames (FM : FloatModel) :
    (∀ (fuel : Nat) (st : St FM) (env : Nat) (f : Expr FM)
      (args : List (Option (Expr FM))),
      framePres st (evalCallExpression fuel st env f args).1) ∧
    (∀ (fuel : Nat) (st : St FM) (env : Nat) (e : Expr FM),
      framePres st (evalExpr fuel st env e).1) ∧
    (∀ (fuel : Nat) (st : St FM) (env : Nat) (s : Stmt FM),
      framePres st (evalStmt fuel st env s).1) ∧
    (evalProgram 10 (initSt ratFM) 0
      [.funcDecl "g" [] (.ret (.intLit 1)),
       .exprStmt (.varInit false "r"
         (.call (.ident "g") []))]).1.status = .ok ∧
    (evalProgram 10 (initSt ratFM) 0
      [.funcDecl "g" [] (.ret (.intLit 1)),
       .exprStmt (.varInit false "r"
         (.call (.ident "g") []))]).1.frame = .root "<main>" ∧
    envIntVal (evalProgram 10 (initSt ratFM) 0
      [.funcDecl "g" [] (.ret (.intLit 1)),
       .exprStmt (.varInit false "r"
         (.call (.ident "g") []))]).1 0 "r" = some 1 ∧
    (evalProgram 10 (initSt ratFM) 0
      [.funcDecl "g" []
         (.exprStmt (.binary .slash (.intLit 1) (.intLit 0))),
       .exprStmt (.varInit false "r"
         (.call (.ident "g") []))]).1.frame =
      .child "<function \"g\">" (.root "<main>") := by
  refine ⟨?_, ?_, ?_, by decide, by decide, by decide, by decide⟩
  · intro fuel st env f args
    exact (framePres_eval FM
      fuel).2.2.2.2.2.2.2.2.2.2.2.2.2.2.2.2.2.2.2.2.2.1 st env f args
  · intro fuel st env e
    exact (framePres_eval FM fuel).2.1 st env e
  · intro fuel st env s
    exact (framePres_eval FM fuel).1 st env s

/-- Witness for C2: the frame-preservation invariant applied to a concrete
run that completes without error. -/
theorem c2_call_frames_witness :
    (evalExpr 5 (initSt ratFM) 0
      (.binary .plus (.intLit 1) (.intLit 2))).1.status = .ok ∧
    (evalExpr 5 (initSt ratFM) 0
      (.binary .plus (.intLit 1) (.intLit 2))).1.frame =
      (initSt ratFM).frame :=
  ⟨by decide, (((c2_call_frames ratFM).2.1 5 (initSt ratFM) 0
    (.binary .plus (.intLit 1) (.intLit 2))) (by decide)).2⟩

end FramePres

end Ghost
